import Mathlib

/-!
# InfluxDB connector of grafana-zabbix

A shallow embedding of `src/datasource-zabbix/zabbix/connectors/influxdb/influxdbConnector.js`
and the properties of its query construction and response reshaping.

Conventions of the embedding:

* JavaScript strings are `String`; the code only concatenates them and scans them for
  whitespace, and every whitespace character of the regular expression class `\s` lies in
  the basic multilingual plane, so code points and UTF-16 code units agree on it.
* JavaScript numbers holding integers are `Int`, an integer standing for the double nearest
  to it. The quotient in `Math.ceil(intervalMs / 1000)` is rounded to a double before the
  ceiling is taken, and a number is written into a template as the shortest decimal that
  reads back as the same double, in exponent form from `10^21` on. Below `2^53` every
  integer is a double and its text is its decimal digits.
* A promise that resolves is its value; `Promise.all` keeps the order of its inputs. The
  client answers a query text with data, and what it has received through its method
  `_seriesQuery` is passed along from call to call, so that the queries submitted are those
  the client has received.
* The loop of `handleInfluxHistoryResponse` need not terminate, so it runs on fuel:
  `none` means the fuel ran out before the loop left.
-/

namespace InfluxDBConnector

/-! ## JavaScript values of property lookups and template rendering -/

/-- Names of the members every object literal inherits from `Object.prototype`. -/
def objectPrototypeKeys : List String :=
  ["constructor", "__defineGetter__", "__defineSetter__", "hasOwnProperty",
   "__lookupGetter__", "__lookupSetter__", "isPrototypeOf", "propertyIsEnumerable",
   "toString", "valueOf", "__proto__", "toLocaleString"]

/-- Result of reading `obj[key]` on one of the constant tables of the module: an own
string, `undefined`, or a member inherited from `Object.prototype`. -/
inductive JsValue where
  | undefined : JsValue
  | str (s : String) : JsValue
  | inherited (key : String) : JsValue
  deriving DecidableEq, Repr

/-- Reading `table[key]` where `table` is an object literal with the given own entries. -/
def jsGet (own : List (String × String)) (key : String) : JsValue :=
  match own.lookup key with
  | some v => JsValue.str v
  | none => if key ∈ objectPrototypeKeys then JsValue.inherited key else JsValue.undefined

/-- Text of an inherited member when interpolated into a template: `__proto__` is the
prototype object itself, `constructor` is the function `Object`, the others are the
built-in functions of their own name. -/
def inheritedText (key : String) : String :=
  if key = "__proto__" then "[object Object]"
  else if key = "constructor" then "function Object() \x7b [native code] \x7d"
  else "function " ++ key ++ "() \x7b [native code] \x7d"

/-- Text of a value interpolated into a template literal. -/
def JsValue.render : JsValue → String
  | JsValue.undefined => "undefined"
  | JsValue.str s => s
  | JsValue.inherited key => inheritedText key

/-! ## JavaScript numbers that hold integers -/

/-- The quotient `n / d` rounded to the nearest integer, a tie going to the even one. -/
def roundHalfEven (n d : Nat) : Nat :=
  let q := n / d
  let r := n % d
  if 2 * r < d then q
  else if d < 2 * r then q + 1
  else if q % 2 = 0 then q else q + 1

/-- Doubling of the numerator `n` until the quotient `n / d` has 53 bits: returns the
numerator reached and the power of two `p` it was multiplied by. -/
def scaleUp (d : Nat) : Nat → Nat → Nat → Nat × Nat
  | 0, n, p => (n, p)
  | fuel + 1, n, p =>
    if n / d < 4503599627370496 then scaleUp d fuel (2 * n) (2 * p) else (n, p)

/-- Doubling of the denominator `d` until the quotient `n / d` has no more than 53 bits:
returns the denominator reached and the power of two `p` it was multiplied by. -/
def scaleDown (n : Nat) : Nat → Nat → Nat → Nat × Nat
  | 0, d, p => (d, p)
  | fuel + 1, d, p =>
    if 9007199254740992 ≤ n / d then scaleDown n fuel (2 * d) (2 * p) else (d, p)

/-- The value of the double nearest to the natural number `n` (round to nearest, ties to
even, 53 bits of significand). -/
def nearestDouble (n : Nat) : Nat :=
  if n < 9007199254740992 then n
  else
    let (_, p) := scaleDown n 1100 1 1
    roundHalfEven n p * p

/-- Whether the double nearest to `n` is finite: from `2^1024` on it is `Infinity`. -/
def isFiniteDouble (n : Nat) : Bool :=
  nearestDouble n < (2 ^ 256) ^ 4

/-- The expression `Math.ceil(x / 1000)` for a double `x` holding the natural number `x`:
the quotient is the double nearest to `x / 1000`, then rounded up to an integer. -/
def ceilOfQuotient (x : Nat) : Nat :=
  if x = 0 then 0
  else if 9007199254740992 ≤ x / 1000 then
    let (d, p) := scaleDown x 1100 1000 1
    roundHalfEven x d * p
  else
    let (n, p) := scaleUp 1000 1100 x 1
    (roundHalfEven n 1000 + p - 1) / p

/-- The same quotient rounded down, for the ceiling of a negative number. -/
def floorOfQuotient (x : Nat) : Nat :=
  if x = 0 then 0
  else if 9007199254740992 ≤ x / 1000 then
    let (d, p) := scaleDown x 1100 1000 1
    roundHalfEven x d * p
  else
    let (n, p) := scaleUp 1000 1100 x 1
    roundHalfEven n 1000 / p

/-- The expression `Math.ceil(intervalMs / 1000)`. An integer stands for the double nearest
to it; one whose double is infinite stays as it is, as the quotient and its ceiling are
infinite too. -/
def ceilSeconds (intervalMs : Int) : Int :=
  match intervalMs with
  | Int.ofNat n =>
    if isFiniteDouble n then Int.ofNat (ceilOfQuotient (nearestDouble n)) else intervalMs
  | Int.negSucc n =>
    if isFiniteDouble (n + 1) then -Int.ofNat (floorOfQuotient (nearestDouble (n + 1)))
    else intervalMs

/-- Plain decimal digits of an integer. -/
def decimalText : Int → String
  | Int.ofNat n => Nat.repr n
  | Int.negSucc n => "-" ++ Nat.repr (n + 1)

/-- The candidates `s * 10^j` of `k` digits next to the double `x`, with their distance
to `x`: `s` is the quotient `x / 10^j` or the integer after it. -/
def digitCandidates (x k j : Nat) : List (Nat × Nat × Nat) :=
  ([x / 10 ^ j, x / 10 ^ j + 1].filter fun s =>
      10 ^ (k - 1) ≤ s && s < 10 ^ k && nearestDouble (s * 10 ^ j) == x).map
    fun s => (s, j, if x ≤ s * 10 ^ j then s * 10 ^ j - x else x - s * 10 ^ j)

/-- The nearer of two candidates, the even one at equal distance. -/
def nearer (a b : Nat × Nat × Nat) : Nat × Nat × Nat :=
  if b.2.2 < a.2.2 then b
  else if a.2.2 < b.2.2 then a
  else if a.1 % 2 = 0 then a else b

/-- The shortest decimal `s * 10^j` that reads back as the double `x` of `digits` decimal
digits: the candidates of `k` digits are tried for `k = 1, 2, ...`. -/
def shortestDecimal (x digits : Nat) : Nat → Nat → Nat × Nat
  | 0, _ => (x, 0)
  | fuel + 1, k =>
    match digitCandidates x k (digits - k) ++ digitCandidates x k (digits - k + 1) with
    | [] => shortestDecimal x digits fuel (k + 1)
    | c :: cs => let best := cs.foldl nearer c; (best.1, best.2.1)

/-- Text of a finite double `x` of `2^53` or more in a template literal: the digits of its
shortest decimal followed by zeros up to 21 digits, the exponent form beyond. -/
def largeNumberText (x : Nat) : String :=
  let (s, j) := shortestDecimal x (Nat.repr x).length 17 1
  let digits := Nat.repr s
  let n := digits.length + j
  if n ≤ 21 then digits ++ String.mk (List.replicate j '0')
  else
    match digits.data with
    | [] => digits
    | [c] => String.mk [c] ++ "e+" ++ Nat.repr (n - 1)
    | c :: rest => String.mk (c :: '.' :: rest) ++ "e+" ++ Nat.repr (n - 1)

/-- Text of a natural number interpolated into a template literal. -/
def naturalText (n : Nat) : String :=
  if n < 9007199254740992 then Nat.repr n
  else if isFiniteDouble n then largeNumberText (nearestDouble n)
  else "Infinity"

/-- Text of an integer-valued number interpolated into a template literal. -/
def numberText : Int → String
  | Int.ofNat n => naturalText n
  | Int.negSucc n => "-" ++ naturalText (n + 1)

/-! ## Constant tables (source lines 5-31) -/

def HISTORY_TO_TABLE_MAP : List (String × String) :=
  [("0", "history"), ("1", "history_str"), ("2", "history_log"),
   ("3", "history_uint"), ("4", "history_text")]

def TREND_TO_TABLE_MAP : List (String × String) :=
  [("0", "trends"), ("3", "trends_uint")]

def consolidateByFunc : List (String × String) :=
  [("avg", "AVG"), ("min", "MIN"), ("max", "MAX"), ("sum", "SUM"), ("count", "COUNT")]

def consolidateByTrendColumns : List (String × String) :=
  [("avg", "value_avg"), ("min", "value_min"), ("max", "value_max"),
   ("sum", "num*value_avg")]

/-! ## compactQuery (source lines 162-164) -/

/-- Characters matched by `\s` in a JavaScript regular expression. -/
def isWhiteSpace (c : Char) : Bool :=
  let n := c.toNat
  n == 9 || n == 10 || n == 11 || n == 12 || n == 13 || n == 32 || n == 160 ||
  n == 5760 || (8192 ≤ n && n ≤ 8202) || n == 8232 || n == 8233 || n == 8239 ||
  n == 8287 || n == 12288 || n == 65279

/-- Left-to-right scan of `replace(/\s+/g, ' ')`: `inRun` tells whether the previous
character belonged to the whitespace run being replaced. The first character of a run is
written as one space, the further characters of the run are consumed by the same match,
every other character is copied. -/
def collapse : Bool → List Char → List Char
  | _, [] => []
  | inRun, c :: cs =>
    if isWhiteSpace c then
      if inRun then collapse true cs else ' ' :: collapse true cs
    else c :: collapse false cs

def compactQuery (query : String) : String :=
  String.mk (collapse false query.data)

/-! ## Query construction (source lines 98-119) -/

def buildWhereClause (itemids : List String) : String :=
  let itemidsWhere := " OR ".intercalate (itemids.map fun itemid => "\"itemid\" = '" ++ itemid ++ "'")
  "(" ++ itemidsWhere ++ ")"

def buildHistoryQuery (itemids : List String) (table : JsValue) (timeFrom timeTill intervalSec : Int)
    (aggFunction : JsValue) : String :=
  let AGG := if aggFunction = JsValue.str "AVG" then JsValue.str "MEAN" else aggFunction
  let where_clause := buildWhereClause itemids
  let query := "SELECT " ++ AGG.render ++ "(\"value\") FROM \"" ++ table.render ++ "\"\n      WHERE "
    ++ where_clause ++ " AND \"time\" >= " ++ numberText timeFrom ++ "s AND \"time\" <= "
    ++ numberText timeTill ++ "s\n      GROUP BY time(" ++ numberText intervalSec
    ++ "s), \"itemid\" fill(linear)"
  compactQuery query

def buildTrendsQuery (itemids : List String) (table : JsValue) (timeFrom timeTill intervalSec : Int)
    (aggFunction : JsValue) (valueColumn : JsValue) : String :=
  let AGG := if aggFunction = JsValue.str "AVG" then JsValue.str "MEAN" else aggFunction
  let where_clause := buildWhereClause itemids
  let query := "SELECT " ++ AGG.render ++ "(\"" ++ valueColumn.render ++ "\") FROM \""
    ++ table.render ++ "\"\n      WHERE "
    ++ where_clause ++ " AND \"time\" >= " ++ numberText timeFrom ++ "s AND \"time\" <= "
    ++ numberText timeTill ++ "s\n      GROUP BY time(" ++ numberText intervalSec ++ "s)"
  compactQuery query


/-! ## Items and their grouping by value type (lodash `_.groupBy`, `_.map` on an object) -/

/-- A monitored item as the connector reads it: `itemid` and `value_type`, the latter
as the property key it becomes in `_.groupBy`. -/
structure Item where
  itemid : String
  value_type : String
  deriving DecidableEq, Repr

/-- One step of `_.groupBy`: push the item onto the array stored under `key`, or create the
property with a one-element array when the object has no such own property yet. The object is
the list of its own properties in creation order. -/
def groupInsert (key : String) (item : Item) :
    List (String × List Item) → List (String × List Item)
  | [] => [(key, [item])]
  | (k, v) :: rest =>
    if k = key then (k, v ++ [item]) :: rest else (k, v) :: groupInsert key item rest

/-- Lodash `_.groupBy(items, 'value_type')`. -/
def groupBy (items : List Item) : List (String × List Item) :=
  items.foldl (fun result item => groupInsert item.value_type item result) []

/-- The array index a property key denotes, if it is the canonical decimal text of an
integer below `2^32 - 1`. -/
def arrayIndex? (key : String) : Option Nat :=
  match key.data with
  | [] => none
  | ['0'] => some 0
  | '0' :: _ => none
  | cs =>
    if cs.all Char.isDigit then
      let n := cs.foldl (fun acc c => 10 * acc + (c.toNat - 48)) 0
      if n < 4294967295 then some n else none
    else none

/-- Own enumerable properties in the order `Object.keys` lists them, which is the order
`_.map` visits an object: array indices in ascending numeric order, then the other keys in
creation order. -/
def ownEntries {β : Type} (obj : List (String × β)) : List (String × β) :=
  (obj.filter fun e => (arrayIndex? e.1).isSome).insertionSort
      (fun a b => (arrayIndex? a.1).getD 0 ≤ (arrayIndex? b.1).getD 0)
    ++ obj.filter fun e => !(arrayIndex? e.1).isSome

/-! ## Responses of the client and their reshaping (source lines 121-160) -/

/-- A series of a response: the `itemid` tag and the rows `[time, value]`, `values` being
absent for `none`. -/
structure InfluxSeries (α : Type) where
  itemid : String
  values : Option (List (α × α))

/-- A present entry of `results`; `series` is `none` when the entry has no such field. -/
structure InfluxResult (α : Type) where
  series : Option (List (InfluxSeries α))

/-- What `_seriesQuery` resolves to when it is not null: `results` may be missing. -/
structure SeriesData (α : Type) where
  results : Option (List (Option (InfluxResult α)))

/-- An output series: `name` and the points `[value, time]`. -/
structure TimeSeries (α : Type) where
  name : String
  points : List (α × α)
  deriving DecidableEq, Repr

/-- The client: the data `influxDS._seriesQuery(query)` resolves to, `none` for null. -/
abbrev Client (α : Type) := String → Option (SeriesData α)

/-- The client's method `_seriesQuery(query)`, the only way a query reaches the client:
after the call the client has received `query` on top of what it had `received`, and the
call resolves to the client's answer. -/
def seriesQuery {α : Type} (client : Client α) (query : String) (received : List String) :
    List String × Option (SeriesData α) :=
  (received ++ [query], client query)

/-- The method `invokeInfluxDBQuery(query)`: it calls `this.influxDS._seriesQuery(query)` and
takes the `results` of the data the call resolves to, the empty list when there are none. -/
def invokeInfluxDBQuery {α : Type} (client : Client α) (query : String)
    (received : List String) : List String × List (Option (InfluxResult α)) :=
  let (received1, data) := seriesQuery client query received
  (received1,
    match data with
    | some data =>
      match data.results with
      | some results => results
      | none => []
    | none => [])

/-- Lodash `_.map` over the entries of an object with a callback that calls the client: the
callback runs entry by entry, each run starting from what the client has received so far.
Returns what the client has received in the end and the values of the callback. -/
def mapEntries {β γ : Type} (callback : β → List String → List String × γ) :
    List β → List String → List String × List γ
  | [], received => (received, [])
  | entry :: rest, received =>
    let (received1, value) := callback entry received
    let (received2, values) := mapEntries callback rest received1
    (received2, value :: values)

/-- The loop `for (i = 0; i < values.length; i++) datapoints[i] = [values[i][1], values[i][0]]`
over the rows still to visit; every store is at index `datapoints.length`. Returns the final
`i` and `datapoints`. -/
def rowLoop {α : Type} : List (α × α) → Nat → List (α × α) → Nat × List (α × α)
  | [], i, datapoints => (i, datapoints)
  | row :: rest, i, datapoints => rowLoop rest (i + 1) (datapoints ++ [(row.2, row.1)])

/-- The loop over `y` of lines 143-156 on the series still to visit. The variable `i` of the
row loop is the `i` of the enclosing function, so it is part of the state. -/
def seriesLoop {α : Type} :
    List (InfluxSeries α) → Nat → List (TimeSeries α) → Nat × List (TimeSeries α)
  | [], i, seriesList => (i, seriesList)
  | influxSeries :: rest, i, seriesList =>
    let (i', datapoints) :=
      match influxSeries.values with
      | some values => rowLoop values 0 []
      | none => (i, [])
    seriesLoop rest i' (seriesList ++ [⟨influxSeries.itemid, datapoints⟩])

/-- The loop over `i` of lines 135-157, one unit of fuel per test of `i < results.length`. -/
def resultLoop {α : Type} (results : List (Option (InfluxResult α))) :
    Nat → Nat → List (TimeSeries α) → Option (List (TimeSeries α))
  | 0, _, _ => none
  | fuel + 1, i, seriesList =>
    if h : i < results.length then
      match results.get ⟨i, h⟩ with
      | none => resultLoop results fuel (i + 1) seriesList
      | some result =>
        match result.series with
        | none => resultLoop results fuel (i + 1) seriesList
        | some influxSeriesList =>
          let (i', seriesList') := seriesLoop influxSeriesList i seriesList
          resultLoop results fuel (i' + 1) seriesList'
    else some seriesList

/-- The function `handleInfluxHistoryResponse(results)`; `results` is `none` for a null argument. -/
def handleInfluxHistoryResponse {α : Type} (fuel : Nat)
    (results : Option (List (Option (InfluxResult α)))) : Option (List (TimeSeries α)) :=
  match results with
  | none => some []
  | some results => resultLoop results fuel 0 []

/-! ## getHistory and getTrends (source lines 50-96) -/

/-- The field `consolidateBy` of the options. -/
inductive ConsolidateBy where
  | undefined : ConsolidateBy
  | null : ConsolidateBy
  | str (s : String) : ConsolidateBy
  deriving DecidableEq, Repr

/-- The expression `consolidateBy || 'avg'`. -/
def ConsolidateBy.orAvg : ConsolidateBy → String
  | ConsolidateBy.undefined => "avg"
  | ConsolidateBy.null => "avg"
  | ConsolidateBy.str s => if s = "" then "avg" else s

structure QueryOptions where
  intervalMs : Int
  consolidateBy : ConsolidateBy

/-- Outcome of a fetch: the query texts the client has received through
`influxDS._seriesQuery`, in call order, and the value the returned promise resolves to
(`none`: the reshaping loop does not leave within the fuel). -/
structure Fetch (α : Type) where
  queries : List String
  result : Option (List (TimeSeries α))

def getHistory {α : Type} (client : Client α) (fuel : Nat) (items : List Item)
    (timeFrom timeTill : Int) (options : QueryOptions) : Fetch α :=
  let intervalSec := ceilSeconds options.intervalMs
  let consolidateBy := options.consolidateBy.orAvg
  let aggFunction := jsGet consolidateByFunc consolidateBy
  let grouped_items := groupBy items
  let (received, promises) := mapEntries (fun (entry : String × List Item) received =>
    let itemids := entry.2.map Item.itemid
    let table := jsGet HISTORY_TO_TABLE_MAP entry.1
    let query := buildHistoryQuery itemids table timeFrom timeTill intervalSec aggFunction
    invokeInfluxDBQuery client query received) (ownEntries grouped_items) []
  ⟨received, handleInfluxHistoryResponse fuel (some promises.flatten)⟩

def getTrends {α : Type} (client : Client α) (fuel : Nat) (items : List Item)
    (timeFrom timeTill : Int) (options : QueryOptions) : Fetch α :=
  let intervalSec := ceilSeconds options.intervalMs
  let consolidateBy := options.consolidateBy.orAvg
  let aggFunction := jsGet consolidateByFunc consolidateBy
  let grouped_items := groupBy items
  let (received, promises) := mapEntries (fun (entry : String × List Item) received =>
    let itemids := entry.2.map Item.itemid
    let table := jsGet TREND_TO_TABLE_MAP entry.1
    let valueColumn := if consolidateBy ∈ ["avg", "min", "max", "sum"] then consolidateBy else "avg"
    let valueColumn := jsGet consolidateByTrendColumns valueColumn
    let query :=
      buildTrendsQuery itemids table timeFrom timeTill intervalSec aggFunction valueColumn
    invokeInfluxDBQuery client query received) (ownEntries grouped_items) []
  ⟨received, handleInfluxHistoryResponse fuel (some promises.flatten)⟩

/-! ## Reference reshaping, in the words of the specification -/

/-- The output series the specification assigns to one input series: named by the item-id
tag, the rows in their order with time and value swapped (no points without `values`). -/
def specSeries {α : Type} (s : InfluxSeries α) : TimeSeries α :=
  ⟨s.itemid, (s.values.getD []).map fun row => (row.2, row.1)⟩

/-- The output the specification assigns to a list of responses: the series of the present
responses that have series, concatenated in order. -/
def specReshape {α : Type} (results : List (Option (InfluxResult α))) : List (TimeSeries α) :=
  (results.map fun r =>
    match r with
    | some result => (result.series.getD []).map specSeries
    | none => []).flatten

/-! ## Inputs of the examples -/

def exampleItems : List Item := [⟨"10010", "0"⟩, ⟨"10011", "3"⟩]

/-- One result with one series per item of the list, each with the single row `[1000, 5]`. -/
def oneRowPerItem (ids : List String) : SeriesData Int :=
  ⟨some [some ⟨some (ids.map fun id => ⟨id, some [(1000, 5)]⟩)⟩]⟩

/-- A client that answers the two queries of `exampleItems` with one series per queried item. -/
def exampleClient : Client Int := fun query =>
  if query = "SELECT MEAN(\"value\") FROM \"history\" WHERE (\"itemid\" = '10010') AND \"time\" >= 1000s AND \"time\" <= 2000s GROUP BY time(60s), \"itemid\" fill(linear)"
  then some (oneRowPerItem ["10010"])
  else if query = "SELECT MEAN(\"value\") FROM \"history_uint\" WHERE (\"itemid\" = '10011') AND \"time\" >= 1000s AND \"time\" <= 2000s GROUP BY time(60s), \"itemid\" fill(linear)"
  then some (oneRowPerItem ["10011"])
  else none

/-- Two responses, each with one series of one row. -/
def twoResponses : List (Option (InfluxResult Int)) :=
  [some ⟨some [⟨"10010", some [(1000, 5)]⟩]⟩, some ⟨some [⟨"10011", some [(1000, 7)]⟩]⟩]

/-! ## Select clauses and tables of trend queries, in the words of the specification -/

/-- The select clause of a trend query for each aggregation mode. -/
def specTrendSelect : List (String × String) :=
  [("avg", "SELECT MEAN(\"value_avg\")"), ("min", "SELECT MIN(\"value_min\")"),
   ("max", "SELECT MAX(\"value_max\")"), ("sum", "SELECT SUM(\"num*value_avg\")"),
   ("count", "SELECT COUNT(\"value_avg\")")]

/-- The trend table of each numeric value type. -/
def specTrendTable (value_type : String) : String :=
  if value_type = "0" then "trends" else "trends_uint"

/-! ## Whitespace normalisation, in the words of the specification -/

/-- Every maximal run of characters of the class `space` replaced by exactly one space
character, every other character kept in place: at a character of the class the whole run
that starts there is consumed. -/
def replaceRuns (space : Char → Bool) : List Char → List Char
  | [] => []
  | c :: cs =>
    if space c then ' ' :: replaceRuns space (cs.dropWhile space)
    else c :: replaceRuns space cs
termination_by l => l.length
decreasing_by
  all_goals simp_wf
  · exact Nat.lt_succ_of_le (List.dropWhile_sublist space).length_le

/-! ## The course of the outer loop of `handleInfluxHistoryResponse` -/

/-- The value of `i` at the next test of the outer loop after the iteration at index `i`:
the increment of what the body left in `i`. -/
def nextIndex {α : Type} (results : List (Option (InfluxResult α))) (i : Nat) : Nat :=
  match results[i]? with
  | some (some ⟨some influxSeriesList⟩) => (seriesLoop influxSeriesList i []).1 + 1
  | _ => i + 1

/-- The series the iteration at index `i` pushes onto `seriesList`. -/
def pushed {α : Type} (results : List (Option (InfluxResult α))) (i : Nat) :
    List (TimeSeries α) :=
  match results[i]? with
  | some (some ⟨some influxSeriesList⟩) => (seriesLoop influxSeriesList i []).2
  | _ => []

/-- The indices of `results` the outer loop visits from `i` on, in the order of the visits,
one unit of fuel per test of `i < results.length`; `none` when the loop has not left within
the fuel. -/
def visits {α : Type} (results : List (Option (InfluxResult α))) :
    Nat → Nat → Option (List Nat)
  | 0, _ => none
  | fuel + 1, i =>
    if i < results.length then (visits results fuel (nextIndex results i)).map (i :: ·)
    else some []

/-- An entry of `results` that is null or has no `series` field. -/
def isAbsent {α : Type} : Option (InfluxResult α) → Bool
  | some ⟨some _⟩ => false
  | _ => true

/-- The results list with every null entry and every entry without series removed. -/
def presentResults {α : Type} (results : List (Option (InfluxResult α))) :
    List (Option (InfluxResult α)) :=
  results.filter fun r => !isAbsent r

/-- Three responses, each with one series of one row. -/
def threeResponses : List (Option (InfluxResult Int)) :=
  [some ⟨some [⟨"10010", some [(1000, 5)]⟩]⟩, some ⟨some [⟨"10011", some [(1000, 7)]⟩]⟩,
   some ⟨some [⟨"10012", some [(1000, 9)]⟩]⟩]

/-- A response with one row, a null entry, a response with two rows. -/
def withNullEntry : List (Option (InfluxResult Int)) :=
  [some ⟨some [⟨"10010", some [(1000, 5)]⟩]⟩, none,
   some ⟨some [⟨"10011", some [(1000, 7), (1060, 8)]⟩]⟩]

/-- Responses with one row, two rows and no row. -/
def outOfOrderResponses : List (Option (InfluxResult Int)) :=
  [some ⟨some [⟨"10010", some [(1000, 5)]⟩]⟩,
   some ⟨some [⟨"10011", some [(1000, 7), (1060, 8)]⟩]⟩,
   some ⟨some [⟨"10012", some []⟩]⟩]

/-! ## Occurrence of a text in a query -/

/-- The text `part` occurs in `whole`. -/
def occursIn (part whole : String) : Prop :=
  ∃ pre post : String, whole = pre ++ part ++ post

/-! ## Theorems: response reshaping -/

theorem mapEntries_invoke {α β : Type} (client : Client α) (build : β → String)
    (entries : List β) (received : List String) :
    mapEntries (fun entry received => invokeInfluxDBQuery client (build entry) received)
        entries received
      = (received ++ entries.map build,
          entries.map fun entry => (invokeInfluxDBQuery client (build entry) []).2) := by
  induction entries generalizing received with
  | nil => simp [mapEntries]
  | cons entry rest ih =>
    simp only [mapEntries, ih, List.map_cons]
    simp [invokeInfluxDBQuery, seriesQuery]

theorem getHistory_queries {α : Type} (client : Client α) (fuel : Nat) (items : List Item)
    (timeFrom timeTill : Int) (options : QueryOptions) :
    (getHistory client fuel items timeFrom timeTill options).queries
      = (ownEntries (groupBy items)).map fun entry =>
          buildHistoryQuery (entry.2.map Item.itemid) (jsGet HISTORY_TO_TABLE_MAP entry.1)
            timeFrom timeTill (ceilSeconds options.intervalMs)
            (jsGet consolidateByFunc options.consolidateBy.orAvg) := by
  simp only [getHistory]
  rw [mapEntries_invoke client fun (entry : String × List Item) =>
    buildHistoryQuery (entry.2.map Item.itemid) (jsGet HISTORY_TO_TABLE_MAP entry.1)
      timeFrom timeTill (ceilSeconds options.intervalMs)
      (jsGet consolidateByFunc options.consolidateBy.orAvg)]
  simp

theorem getTrends_queries {α : Type} (client : Client α) (fuel : Nat) (items : List Item)
    (timeFrom timeTill : Int) (options : QueryOptions) :
    (getTrends client fuel items timeFrom timeTill options).queries
      = (ownEntries (groupBy items)).map fun entry =>
          buildTrendsQuery (entry.2.map Item.itemid) (jsGet TREND_TO_TABLE_MAP entry.1)
            timeFrom timeTill (ceilSeconds options.intervalMs)
            (jsGet consolidateByFunc options.consolidateBy.orAvg)
            (jsGet consolidateByTrendColumns
              (if options.consolidateBy.orAvg ∈ ["avg", "min", "max", "sum"] then
                options.consolidateBy.orAvg else "avg")) := by
  simp only [getTrends]
  rw [mapEntries_invoke client fun (entry : String × List Item) =>
    buildTrendsQuery (entry.2.map Item.itemid) (jsGet TREND_TO_TABLE_MAP entry.1)
      timeFrom timeTill (ceilSeconds options.intervalMs)
      (jsGet consolidateByFunc options.consolidateBy.orAvg)
      (jsGet consolidateByTrendColumns
        (if options.consolidateBy.orAvg ∈ ["avg", "min", "max", "sum"] then
          options.consolidateBy.orAvg else "avg"))]
  simp

theorem getHistory_result {α : Type} (client : Client α) (fuel : Nat) (items : List Item)
    (timeFrom timeTill : Int) (options : QueryOptions) :
    (getHistory client fuel items timeFrom timeTill options).result
      = handleInfluxHistoryResponse fuel (some
          ((ownEntries (groupBy items)).map fun entry =>
            (invokeInfluxDBQuery client
              (buildHistoryQuery (entry.2.map Item.itemid)
                (jsGet HISTORY_TO_TABLE_MAP entry.1) timeFrom timeTill
                (ceilSeconds options.intervalMs)
                (jsGet consolidateByFunc options.consolidateBy.orAvg)) []).2).flatten) := by
  simp only [getHistory]
  rw [mapEntries_invoke client fun (entry : String × List Item) =>
    buildHistoryQuery (entry.2.map Item.itemid) (jsGet HISTORY_TO_TABLE_MAP entry.1)
      timeFrom timeTill (ceilSeconds options.intervalMs)
      (jsGet consolidateByFunc options.consolidateBy.orAvg)]

theorem rowLoop_eq {α : Type} (values : List (α × α)) (i : Nat) (datapoints : List (α × α)) :
    rowLoop values i datapoints
      = (i + values.length, datapoints ++ values.map fun row => (row.2, row.1)) := by
  induction values generalizing i datapoints with
  | nil => simp [rowLoop]
  | cons row rest ih =>
    simp only [rowLoop, ih, List.length_cons, List.map_cons, List.append_assoc,
      List.singleton_append]
    congr 1
    omega

theorem seriesLoop_snd {α : Type} (l : List (InfluxSeries α)) (i : Nat)
    (seriesList : List (TimeSeries α)) :
    (seriesLoop l i seriesList).2 = seriesList ++ l.map specSeries := by
  induction l generalizing i seriesList with
  | nil => simp [seriesLoop]
  | cons s rest ih =>
    cases hv : s.values with
    | none => simp [seriesLoop, hv, ih, specSeries]
    | some values => simp [seriesLoop, hv, ih, specSeries, rowLoop_eq]

/-- Claim C3: on a results list of exactly one response, `handleInfluxHistoryResponse`
returns (with any fuel of at least two loop tests) one series per input series in the same
order, each named by its item-id tag, with the rows in order and each pair swapped to
(value, time); a single series tagged `x` with rows `[(t0,v0),(t1,v1)]` yields
`[{name: x, points: [[v0,t0],[v1,t1]]}]`. -/
theorem handle_single_response {α : Type} (l : List (InfluxSeries α)) (fuel : Nat) :
    handleInfluxHistoryResponse (fuel + 2) (some [some ⟨some l⟩]) = some (l.map specSeries)
    ∧ (∀ s ∈ l, ∀ values, s.values = some values →
        specSeries s = ⟨s.itemid, values.map fun row => (row.2, row.1)⟩)
    ∧ ∀ (x : String) (t0 v0 t1 v1 : α),
        handleInfluxHistoryResponse (fuel + 2)
            (some [some ⟨some [⟨x, some [(t0, v0), (t1, v1)]⟩]⟩])
          = some [⟨x, [(v0, t0), (v1, t1)]⟩] := by
  have key : ∀ l : List (InfluxSeries α),
      handleInfluxHistoryResponse (fuel + 2) (some [some ⟨some l⟩])
        = some (l.map specSeries) := by
    intro l
    have h := seriesLoop_snd l 0 []
    simp only [handleInfluxHistoryResponse, resultLoop, List.length_singleton, Nat.lt_one_iff,
      dite_true, List.get, List.nil_append] at h ⊢
    rw [dif_neg (by omega)]
    simp [h]
  refine ⟨key l, ?_, ?_⟩
  · intro s _ values hv
    simp [specSeries, hv]
  · intro x t0 v0 t1 v1
    rw [key]
    simp [specSeries]

/-- Claim C2, evaluated at `twoResponses`: the first response has a series of one row, the
row loop leaves the shared `i` at 1, the outer increment makes it 2, and the second response
is never read. The returned list is the first series alone, whatever the fuel, while the
concatenation over both responses has two series. -/
theorem handle_skips_second_response :
    (∀ fuel, handleInfluxHistoryResponse (fuel + 2) (some twoResponses)
        = some [⟨"10010", [(5, 1000)]⟩])
    ∧ specReshape twoResponses = [⟨"10010", [(5, 1000)]⟩, ⟨"10011", [(7, 1000)]⟩]
    ∧ ∀ fuel, handleInfluxHistoryResponse fuel (some twoResponses)
        ≠ some (specReshape twoResponses) := by
  have h : ∀ fuel, handleInfluxHistoryResponse (fuel + 2) (some twoResponses)
      = some [⟨"10010", [(5, 1000)]⟩] := by
    intro fuel
    simp [handleInfluxHistoryResponse, resultLoop, twoResponses, seriesLoop, rowLoop]
  refine ⟨h, by decide, ?_⟩
  intro fuel
  match fuel with
  | 0 => decide
  | 1 => decide
  | fuel + 2 => rw [h]; decide

set_option maxRecDepth 100000 in
/-- Claim C1, evaluated at its own example: items 10010 (type 0) and 10011 (type 3) over
[1000, 2000] with 60000 ms and `avg`. Two queries are submitted, the client answers each with
one series for the queried item holding one row, and the list returned holds the series
"10010" only. -/
theorem getHistory_example_loses_series (fuel : Nat) :
    (getHistory exampleClient (fuel + 2) exampleItems 1000 2000
        ⟨60000, ConsolidateBy.str "avg"⟩).queries
      = ["SELECT MEAN(\"value\") FROM \"history\" WHERE (\"itemid\" = '10010') AND \"time\" >= 1000s AND \"time\" <= 2000s GROUP BY time(60s), \"itemid\" fill(linear)",
         "SELECT MEAN(\"value\") FROM \"history_uint\" WHERE (\"itemid\" = '10011') AND \"time\" >= 1000s AND \"time\" <= 2000s GROUP BY time(60s), \"itemid\" fill(linear)"]
    ∧ (getHistory exampleClient (fuel + 2) exampleItems 1000 2000
        ⟨60000, ConsolidateBy.str "avg"⟩).result
      = some [⟨"10010", [(5, 1000)]⟩] := by
  refine ⟨by rfl, ?_⟩
  rw [getHistory_result]
  have hr : ((ownEntries (groupBy exampleItems)).map fun entry =>
      (invokeInfluxDBQuery exampleClient
        (buildHistoryQuery (entry.2.map Item.itemid)
          (jsGet HISTORY_TO_TABLE_MAP entry.1) 1000 2000
          (ceilSeconds (QueryOptions.mk 60000 (ConsolidateBy.str "avg")).intervalMs)
          (jsGet consolidateByFunc
            (QueryOptions.mk 60000 (ConsolidateBy.str "avg")).consolidateBy.orAvg)) []).2).flatten
      = [some ⟨some [⟨"10010", some [(1000, 5)]⟩]⟩, some ⟨some [⟨"10011", some [(1000, 5)]⟩]⟩] := by
    rfl
  rw [hr]
  simp [handleInfluxHistoryResponse, resultLoop, seriesLoop, rowLoop]

/-- Claim C10: for an empty item list, every client, time window and options, `getHistory`
and `getTrends` each submit no query and return the empty list. -/
theorem empty_items_no_queries {α : Type} (client : Client α) (fuel : Nat)
    (timeFrom timeTill : Int) (options : QueryOptions) :
    (getHistory client (fuel + 1) [] timeFrom timeTill options).queries = []
    ∧ (getHistory client (fuel + 1) [] timeFrom timeTill options).result = some []
    ∧ (getTrends client (fuel + 1) [] timeFrom timeTill options).queries = []
    ∧ (getTrends client (fuel + 1) [] timeFrom timeTill options).result = some [] := by
  simp [getHistory, getTrends, groupBy, ownEntries, mapEntries, handleInfluxHistoryResponse,
    resultLoop]

/-! ## Theorems: grouping by value type -/

theorem groupInsert_keys (key : String) (item : Item) (obj : List (String × List Item)) :
    (groupInsert key item obj).map Prod.fst
      = if key ∈ obj.map Prod.fst then obj.map Prod.fst else obj.map Prod.fst ++ [key] := by
  induction obj with
  | nil => simp [groupInsert]
  | cons e rest ih =>
    obtain ⟨k, v⟩ := e
    by_cases hk : k = key
    · simp [groupInsert, hk]
    · have hk' : ¬ key = k := fun h => hk h.symm
      simp only [groupInsert, hk, if_false, List.map_cons, ih, List.mem_cons, hk', false_or]
      split <;> simp

theorem groupInsert_mem (key : String) (item : Item) (obj : List (String × List Item))
    (hnd : (obj.map Prod.fst).Nodup) (e : String × List Item)
    (he : e ∈ groupInsert key item obj) :
    (e.1 = key ∧ ((∃ v, (key, v) ∈ obj ∧ e.2 = v ++ [item])
        ∨ (key ∉ obj.map Prod.fst ∧ e.2 = [item])))
    ∨ (e.1 ≠ key ∧ e ∈ obj) := by
  induction obj with
  | nil =>
    simp only [groupInsert, List.mem_singleton] at he
    subst he
    simp
  | cons e' rest ih =>
    obtain ⟨k, v⟩ := e'
    simp only [List.map_cons, List.nodup_cons] at hnd
    by_cases hk : k = key
    · subst hk
      simp only [groupInsert, if_true, List.mem_cons] at he
      rcases he with he | he
      · subst he
        exact Or.inl ⟨rfl, Or.inl ⟨v, by simp, rfl⟩⟩
      · have h1 : e.1 ≠ k := by
          intro h
          exact hnd.1 (h ▸ List.mem_map_of_mem Prod.fst he)
        exact Or.inr ⟨h1, by simp [he]⟩
    · simp only [groupInsert, hk, if_false, List.mem_cons] at he
      rcases he with he | he
      · subst he
        exact Or.inr ⟨hk, by simp⟩
      · rcases ih hnd.2 he with ⟨h1, h2⟩ | ⟨h1, h2⟩
        · refine Or.inl ⟨h1, ?_⟩
          rcases h2 with ⟨w, hw, hw'⟩ | ⟨hw, hw'⟩
          · exact Or.inl ⟨w, by simp [hw], hw'⟩
          · refine Or.inr ⟨?_, hw'⟩
            simp only [List.map_cons, List.mem_cons, not_or]
            exact ⟨fun h => hk h.symm, hw⟩
        · exact Or.inr ⟨h1, by simp [h2]⟩

/-- What `_.groupBy` has built after the items `done`: distinct keys, one per value type that
occurs, each holding the items of that value type in their order. -/
theorem groupBy_foldl (items done : List Item) (obj : List (String × List Item))
    (hnd : (obj.map Prod.fst).Nodup)
    (hkeys : ∀ k, k ∈ obj.map Prod.fst ↔ ∃ it ∈ done, it.value_type = k)
    (hval : ∀ e ∈ obj, e.2 = done.filter fun it => it.value_type = e.1) :
    let result := items.foldl (fun result item => groupInsert item.value_type item result) obj
    (result.map Prod.fst).Nodup
    ∧ (∀ k, k ∈ result.map Prod.fst ↔ ∃ it ∈ done ++ items, it.value_type = k)
    ∧ ∀ e ∈ result, e.2 = (done ++ items).filter fun it => it.value_type = e.1 := by
  induction items generalizing done obj with
  | nil =>
    simp only [List.foldl_nil, List.append_nil]
    exact ⟨hnd, hkeys, hval⟩
  | cons item rest ih =>
    have step := ih (done ++ [item]) (groupInsert item.value_type item obj) ?_ ?_ ?_
    · simp only [List.append_assoc, List.singleton_append] at step
      simp only [List.foldl_cons]
      exact step
    · rw [groupInsert_keys]
      split
      · exact hnd
      · next h =>
        rw [List.nodup_append]
        refine ⟨hnd, List.nodup_singleton _, ?_⟩
        intro a ha hb
        simp only [List.mem_singleton] at hb
        exact h (hb ▸ ha)
    · intro k
      rw [groupInsert_keys]
      split
      · next h =>
        rw [hkeys]
        constructor
        · rintro ⟨it, hit, hk⟩
          exact ⟨it, by simp [hit], hk⟩
        · rintro ⟨it, hit, hk⟩
          simp only [List.mem_append, List.mem_singleton] at hit
          rcases hit with hit | hit
          · exact ⟨it, hit, hk⟩
          · subst hit
            exact hk ▸ (hkeys _).1 h
      · simp only [List.mem_append, List.mem_singleton, hkeys]
        constructor
        · rintro (⟨it, hit, hk⟩ | hk)
          · exact ⟨it, Or.inl hit, hk⟩
          · exact ⟨item, Or.inr rfl, hk.symm⟩
        · rintro ⟨it, hit | hit, hk⟩
          · exact Or.inl ⟨it, hit, hk⟩
          · subst hit
            exact Or.inr hk.symm
    · intro e he
      rcases groupInsert_mem _ _ _ hnd e he with ⟨h1, h2⟩ | ⟨h1, h2⟩
      · rcases h2 with ⟨w, hw, hw'⟩ | ⟨hw, hw'⟩
        · have := hval _ hw
          simp only at this
          rw [hw', this, List.filter_append, h1]
          simp
        · have hnone : done.filter (fun it => it.value_type = e.1) = [] := by
            rw [List.filter_eq_nil_iff]
            intro it hit
            simp only [decide_eq_true_eq]
            intro hk
            exact hw ((hkeys _).2 ⟨it, hit, hk.trans h1⟩)
          rw [hw', List.filter_append, hnone, h1]
          simp
      · rw [hval e h2, List.filter_append]
        have : ¬ item.value_type = e.1 := fun h => h1 h.symm
        simp [this]

theorem groupBy_spec (items : List Item) :
    ((groupBy items).map Prod.fst).Nodup
    ∧ (∀ k, k ∈ (groupBy items).map Prod.fst ↔ ∃ it ∈ items, it.value_type = k)
    ∧ ∀ e ∈ groupBy items, e.2 = items.filter fun it => it.value_type = e.1 := by
  have h := groupBy_foldl items [] [] (by simp) (by simp) (by simp)
  simpa [groupBy] using h

theorem ownEntries_perm {β : Type} (obj : List (String × β)) : (ownEntries obj).Perm obj := by
  unfold ownEntries
  exact ((List.perm_insertionSort _ _).append_right _).trans (List.filter_append_perm _ _)


theorem ownEntries_groupBy_keys (items : List Item) :
    ((ownEntries (groupBy items)).map Prod.fst).Nodup
    ∧ (∀ k, k ∈ (ownEntries (groupBy items)).map Prod.fst ↔ ∃ it ∈ items, it.value_type = k)
    ∧ ∀ e ∈ ownEntries (groupBy items), e.2 = items.filter fun it => it.value_type = e.1 := by
  obtain ⟨hnd, hkeys, hval⟩ := groupBy_spec items
  have hp := ownEntries_perm (groupBy items)
  refine ⟨((hp.map Prod.fst).nodup_iff).2 hnd, ?_, ?_⟩
  · intro k
    rw [(hp.map Prod.fst).mem_iff]
    exact hkeys k
  · intro e he
    exact hval e (hp.mem_iff.1 he)

theorem ownEntries_groupBy_length (items : List Item) :
    (ownEntries (groupBy items)).length = (items.map Item.value_type).toFinset.card := by
  obtain ⟨hnd, hkeys, _⟩ := ownEntries_groupBy_keys items
  have hset : (items.map Item.value_type).toFinset
      = ((ownEntries (groupBy items)).map Prod.fst).toFinset := by
    ext k
    simp only [List.mem_toFinset]
    rw [hkeys]
    simp
  rw [hset, List.toFinset_card_of_nodup hnd, List.length_map]

/-- Claim C4: for every item list (the non-empty ones included) in which N distinct value
types occur, `getHistory` and `getTrends` each submit exactly N queries: the client has
received N query texts through `_seriesQuery` when the call is over. -/
theorem one_query_per_value_type {α : Type} (client : Client α) (fuel : Nat)
    (items : List Item) (timeFrom timeTill : Int) (options : QueryOptions) :
    (getHistory client fuel items timeFrom timeTill options).queries.length
      = (items.map Item.value_type).toFinset.card
    ∧ (getTrends client fuel items timeFrom timeTill options).queries.length
      = (items.map Item.value_type).toFinset.card := by
  simp [getHistory_queries, getTrends_queries, ownEntries_groupBy_length]

/-! ## Theorems: the ceiling of the quotient in double arithmetic -/

theorem roundHalfEven_thousand (n : Nat) :
    1000 * roundHalfEven n 1000 ≤ n + 500 ∧ n ≤ 1000 * roundHalfEven n 1000 + 500 := by
  unfold roundHalfEven
  simp only
  split_ifs <;> omega

theorem scaleUp_factor (d fuel n p : Nat) :
    ∃ c, 0 < c ∧ scaleUp d fuel n p = (n * c, p * c) := by
  induction fuel generalizing n p with
  | zero => exact ⟨1, by decide, by simp [scaleUp]⟩
  | succ fuel ih =>
    unfold scaleUp
    split
    · obtain ⟨c, hc, h⟩ := ih (2 * n) (2 * p)
      exact ⟨2 * c, by omega, by rw [h]; simp [Nat.mul_assoc, Nat.mul_left_comm]⟩
    · exact ⟨1, by decide, by simp⟩

theorem scaleUp_reaches (fuel n p : Nat) (h : 1000 * 4503599627370496 ≤ n * 2 ^ fuel) :
    1000 * 4503599627370496 ≤ (scaleUp 1000 fuel n p).1 := by
  induction fuel generalizing n p with
  | zero => simpa [scaleUp] using h
  | succ fuel ih =>
    unfold scaleUp
    split
    · apply ih
      rw [Nat.pow_succ] at h
      calc 1000 * 4503599627370496 ≤ n * (2 ^ fuel * 2) := h
        _ = 2 * n * 2 ^ fuel := by ring
    · next hlt =>
      simp only
      omega

/-- Below `2^53` the rounding of the quotient to a double does not move its ceiling. -/
theorem ceilOfQuotient_exact (x : Nat) (hx : x < 9007199254740992) :
    ceilOfQuotient x = (x + 999) / 1000 := by
  unfold ceilOfQuotient
  by_cases h0 : x = 0
  · simp [h0]
  rw [if_neg h0, if_neg (by omega)]
  obtain ⟨c, hc, hs⟩ := scaleUp_factor 1000 1100 x 1
  have hreach := scaleUp_reaches 1100 x 1 (by
    have h1 : 1000 * 4503599627370496 ≤ 1 * 2 ^ 1100 := by norm_num
    calc 1000 * 4503599627370496 ≤ 1 * 2 ^ 1100 := h1
      _ ≤ x * 2 ^ 1100 := Nat.mul_le_mul_right _ (by omega))
  rw [hs] at hreach ⊢
  simp only [Nat.one_mul] at hreach ⊢
  obtain ⟨hlo, hhi⟩ := roundHalfEven_thousand (x * c)
  generalize roundHalfEven (x * c) 1000 = m at hlo hhi
  -- the scale exceeds 500
  have hxc : x * c ≤ 9007199254740991 * c := Nat.mul_le_mul_right c (by omega)
  have hc500 : 500 < c := by omega
  -- split x into thousands and rest
  have hsplit : x * c = 1000 * (x / 1000 * c) + x % 1000 * c := by
    have := Nat.div_add_mod x 1000
    calc x * c = (1000 * (x / 1000) + x % 1000) * c := by rw [this]
      _ = 1000 * (x / 1000 * c) + x % 1000 * c := by ring
  generalize hU : x / 1000 * c = U at hsplit
  by_cases hr : x % 1000 = 0
  · have hm : m = U := by
      rw [hr] at hsplit
      omega
    have hq : (x + 999) / 1000 = x / 1000 := by omega
    rw [hq, hm, ← hU]
    apply Nat.div_eq_of_lt_le
    · omega
    · rw [Nat.succ_mul]; omega
  · have hV1 : c ≤ x % 1000 * c := Nat.le_mul_of_pos_left c (by omega)
    have hV2 : x % 1000 * c ≤ 999 * c := Nat.mul_le_mul_right c (by omega)
    have hq : (x + 999) / 1000 = x / 1000 + 1 := by omega
    rw [hq]
    apply Nat.div_eq_of_lt_le
    · rw [Nat.add_mul, hU]; omega
    · rw [Nat.succ_mul, Nat.add_mul, hU]; omega

theorem ceilSeconds_exact (intervalMs : Int) (h0 : 0 ≤ intervalMs)
    (hb : intervalMs < 9007199254740992) :
    ceilSeconds intervalMs = (intervalMs + 999) / 1000 := by
  cases intervalMs with
  | ofNat n =>
    have hn : n < 9007199254740992 := by
      have : (n : Int) < 9007199254740992 := hb
      omega
    have hd : nearestDouble n = n := by simp [nearestDouble, hn]
    have hf : isFiniteDouble n = true := by
      simp only [isFiniteDouble, hd, decide_eq_true_eq]
      calc n < 9007199254740992 := hn
        _ ≤ (2 ^ 256) ^ 4 := by norm_num
    simp only [ceilSeconds, hf, if_true, hd, ceilOfQuotient_exact n hn]
    simp only [Int.ofNat_eq_coe]
    omega
  | negSucc n => simp at h0

theorem numberText_eq_decimalText (n : Int) (h : n.natAbs < 2 ^ 53) :
    numberText n = decimalText n := by
  have h53 : (2 : Nat) ^ 53 = 9007199254740992 := by norm_num
  rw [h53] at h
  cases n with
  | ofNat m =>
    have hm : m < 9007199254740992 := by simpa using h
    simp [numberText, decimalText, naturalText, hm]
  | negSucc m =>
    have hm : m + 1 < 9007199254740992 := by simpa using h
    simp [numberText, decimalText, naturalText, hm]

/-! ## Theorems: the text of the queries -/

theorem collapse_append_cons (b : Bool) (xs : List Char) (c : Char) (ys : List Char)
    (hc : isWhiteSpace c = false) :
    collapse b (xs ++ c :: ys) = collapse b xs ++ c :: collapse false ys := by
  induction xs generalizing b with
  | nil => simp [collapse, hc]
  | cons x xs ih =>
    by_cases hx : isWhiteSpace x = true
    · cases b <;> simp [collapse, hx, ih]
    · simp [collapse, hx, ih]

theorem collapse_of_no_whitespace (b : Bool) (xs : List Char)
    (h : ∀ c ∈ xs, isWhiteSpace c = false) : collapse b xs = xs := by
  induction xs generalizing b with
  | nil => rfl
  | cons x xs ih =>
    have hx : isWhiteSpace x = false := h x (by simp)
    simp only [collapse, hx]
    simp [ih false fun c hc => h c (by simp [hc])]

theorem isWhiteSpace_digitChar (d : Nat) (hd : d < 10) :
    isWhiteSpace (Nat.digitChar d) = false := by
  interval_cases d <;> decide

theorem toDigitsCore_no_whitespace (fuel n : Nat) (ds : List Char)
    (h : ∀ c ∈ ds, isWhiteSpace c = false) :
    ∀ c ∈ Nat.toDigitsCore 10 fuel n ds, isWhiteSpace c = false := by
  induction fuel generalizing n ds with
  | zero => simpa [Nat.toDigitsCore] using h
  | succ fuel ih =>
    have hcons : ∀ c ∈ Nat.digitChar (n % 10) :: ds, isWhiteSpace c = false := by
      intro c hc
      rcases List.mem_cons.1 hc with hc | hc
      · rw [hc]; exact isWhiteSpace_digitChar _ (Nat.mod_lt _ (by decide))
      · exact h c hc
    simp only [Nat.toDigitsCore]
    split
    · exact hcons
    · exact ih _ _ hcons

theorem natRepr_no_whitespace (n : Nat) :
    ∀ c ∈ (Nat.repr n).data, isWhiteSpace c = false :=
  toDigitsCore_no_whitespace _ _ [] (by simp)

theorem largeNumberText_no_whitespace (x : Nat) :
    ∀ c ∈ (largeNumberText x).data, isWhiteSpace c = false := by
  unfold largeNumberText
  simp only
  generalize (shortestDecimal x (Nat.repr x).length 17 1).1 = s
  generalize (shortestDecimal x (Nat.repr x).length 17 1).2 = j
  have hs := natRepr_no_whitespace s
  split
  · intro c hc
    simp only [String.data_append, List.mem_append, List.mem_replicate] at hc
    rcases hc with hc | hc
    · exact hs c hc
    · rw [hc.2]; decide
  · split
    · exact hs
    · next c0 hd =>
      intro c hc
      rw [hd] at hs
      simp only [String.data_append, List.mem_append, List.mem_singleton] at hc
      rcases hc with (hc | hc) | hc
      · rw [hc]; exact hs c0 (by simp)
      · have : c = 'e' ∨ c = '+' := by simpa using hc
        rcases this with h | h <;> rw [h] <;> decide
      · exact natRepr_no_whitespace _ c hc
    · next c0 rest _ hd =>
      intro c hc
      rw [hd] at hs
      simp only [String.data_append, List.mem_append, List.mem_cons] at hc
      rcases hc with ((hc | hc | hc) | hc) | hc
      · rw [hc]; exact hs c0 (by simp)
      · rw [hc]; decide
      · exact hs c (by simp [hc])
      · have : c = 'e' ∨ c = '+' := by simpa using hc
        rcases this with h | h <;> rw [h] <;> decide
      · exact natRepr_no_whitespace _ c hc

theorem naturalText_no_whitespace (n : Nat) :
    ∀ c ∈ (naturalText n).data, isWhiteSpace c = false := by
  unfold naturalText
  split
  · exact natRepr_no_whitespace n
  · split
    · exact largeNumberText_no_whitespace _
    · decide

theorem numberText_no_whitespace (n : Int) :
    ∀ c ∈ (numberText n).data, isWhiteSpace c = false := by
  cases n with
  | ofNat m => exact naturalText_no_whitespace m
  | negSucc m =>
    intro c hc
    simp only [numberText, String.data_append, List.mem_append] at hc
    rcases hc with hc | hc
    · have : c = '-' := by simpa using hc
      rw [this]; decide
    · exact naturalText_no_whitespace _ c hc

theorem collapse_numberText (b : Bool) (n : Int) :
    collapse b (numberText n).data = (numberText n).data :=
  collapse_of_no_whitespace b _ (numberText_no_whitespace n)

theorem intercalate_go_data (sep acc : String) (l : List String) :
    (String.intercalate.go acc sep l).data
      = acc.data ++ (l.map fun a => sep.data ++ a.data).flatten := by
  induction l generalizing acc with
  | nil => simp [String.intercalate.go]
  | cons a as ih => simp [String.intercalate.go, ih, List.append_assoc]

/-- Whitespace collapsing of the joined predicates acts on each item id on its own: the
quotes around an id and the text of the joiner are kept as they are. -/
theorem collapse_predicates (l : List String) :
    collapse false (" OR ".intercalate (l.map fun id => "\"itemid\" = '" ++ id ++ "'")).data
      = (" OR ".intercalate
          (l.map fun id => "\"itemid\" = '" ++ compactQuery id ++ "'")).data := by
  cases l with
  | nil => rfl
  | cons a as =>
    simp only [List.map_cons, String.intercalate, intercalate_go_data, String.data_append,
      List.map_map]
    have htail : ∀ l : List String,
        collapse false (l.map ((fun a => " OR ".data ++ a.data) ∘
            fun id => "\"itemid\" = '" ++ id ++ "'")).flatten
          = (l.map ((fun a => " OR ".data ++ a.data) ∘
            fun id => "\"itemid\" = '" ++ compactQuery id ++ "'")).flatten := by
      intro l
      induction l with
      | nil => rfl
      | cons x xs ih =>
        simp [compactQuery] at ih ⊢
        simp [collapse, isWhiteSpace, collapse_append_cons, ih]
    have ht := htail as
    simp [compactQuery] at ht ⊢
    simp [collapse, isWhiteSpace, collapse_append_cons, ht]


set_option maxRecDepth 20000 in
/-- The text of a history query for arbitrary arguments: one line, the interpolated
aggregation function, table name and item ids with their own whitespace runs collapsed. -/
theorem buildHistoryQuery_text (itemids : List String) (table : JsValue)
    (timeFrom timeTill intervalSec : Int) (aggFunction : JsValue) :
    buildHistoryQuery itemids table timeFrom timeTill intervalSec aggFunction
      = "SELECT "
        ++ String.mk (collapse true
            (if aggFunction = JsValue.str "AVG" then JsValue.str "MEAN"
              else aggFunction).render.data)
        ++ "(\"value\") FROM \"" ++ compactQuery table.render ++ "\" WHERE ("
        ++ " OR ".intercalate (itemids.map fun id => "\"itemid\" = '" ++ compactQuery id ++ "'")
        ++ ") AND \"time\" >= " ++ numberText timeFrom ++ "s AND \"time\" <= "
        ++ numberText timeTill ++ "s GROUP BY time(" ++ numberText intervalSec
        ++ "s), \"itemid\" fill(linear)" := by
  apply String.ext
  have hp := collapse_predicates itemids
  simp only [buildHistoryQuery, buildWhereClause, compactQuery, String.data_append] at hp ⊢
  simp [collapse, isWhiteSpace, collapse_append_cons, collapse_numberText, hp]

set_option maxRecDepth 20000 in
/-- The text of a trend query for arbitrary arguments. -/
theorem buildTrendsQuery_text (itemids : List String) (table : JsValue)
    (timeFrom timeTill intervalSec : Int) (aggFunction valueColumn : JsValue) :
    buildTrendsQuery itemids table timeFrom timeTill intervalSec aggFunction valueColumn
      = "SELECT "
        ++ String.mk (collapse true
            (if aggFunction = JsValue.str "AVG" then JsValue.str "MEAN"
              else aggFunction).render.data)
        ++ "(\"" ++ compactQuery valueColumn.render ++ "\") FROM \""
        ++ compactQuery table.render ++ "\" WHERE ("
        ++ " OR ".intercalate (itemids.map fun id => "\"itemid\" = '" ++ compactQuery id ++ "'")
        ++ ") AND \"time\" >= " ++ numberText timeFrom ++ "s AND \"time\" <= "
        ++ numberText timeTill ++ "s GROUP BY time(" ++ numberText intervalSec ++ "s)" := by
  apply String.ext
  have hp := collapse_predicates itemids
  simp only [buildTrendsQuery, buildWhereClause, compactQuery, String.data_append] at hp ⊢
  simp [collapse, isWhiteSpace, collapse_append_cons, collapse_numberText, hp]


theorem compactQuery_of_no_whitespace (s : String)
    (h : ∀ c ∈ s.data, isWhiteSpace c = false) : compactQuery s = s := by
  apply String.ext
  simp only [compactQuery]
  exact collapse_of_no_whitespace false s.data h

set_option maxRecDepth 100000 in
/-- Claim C6, at an item id holding a tab: the id is written into the query with the tab
replaced by a space, so the query is not the text of the claim with the id as given. -/
theorem buildHistoryQuery_rewrites_id_whitespace :
    buildHistoryQuery ["100\t10"] (JsValue.str "history") 1000 2000 60 (JsValue.str "AVG")
      = "SELECT MEAN(\"value\") FROM \"history\" WHERE (\"itemid\" = '100 10') AND \"time\" >= 1000s AND \"time\" <= 2000s GROUP BY time(60s), \"itemid\" fill(linear)"
    ∧ buildHistoryQuery ["100\t10"] (JsValue.str "history") 1000 2000 60 (JsValue.str "AVG")
      ≠ "SELECT MEAN(\"value\") FROM \"history\" WHERE (\"itemid\" = '100\t10') AND \"time\" >= 1000s AND \"time\" <= 2000s GROUP BY time(60s), \"itemid\" fill(linear)" := by
  decide

/-- Claim C6, amended: for every non-empty list of item ids none of which contains
whitespace, every table name containing no whitespace and all integers `timeFrom`,
`timeTill`, `intervalSec` of magnitude below `2^53`, the history query for `'AVG'` is exactly
the single-line text `SELECT MEAN("value") FROM "<table>" WHERE ("itemid" = '<id1>' OR ...
OR "itemid" = '<idn>') AND "time" >= <timeFrom>s AND "time" <= <timeTill>s GROUP BY
time(<intervalSec>s), "itemid" fill(linear)`, the three numbers in decimal digits. -/
theorem buildHistoryQuery_avg_text (itemids : List String) (table : String)
    (timeFrom timeTill intervalSec : Int)
    (_hne : itemids ≠ [])
    (hids : ∀ id ∈ itemids, ∀ c ∈ id.data, isWhiteSpace c = false)
    (htable : ∀ c ∈ table.data, isWhiteSpace c = false)
    (hfrom : timeFrom.natAbs < 2 ^ 53) (htill : timeTill.natAbs < 2 ^ 53)
    (hsec : intervalSec.natAbs < 2 ^ 53) :
    buildHistoryQuery itemids (JsValue.str table) timeFrom timeTill intervalSec
        (JsValue.str "AVG")
      = "SELECT MEAN(\"value\") FROM \"" ++ table ++ "\" WHERE ("
        ++ " OR ".intercalate (itemids.map fun id => "\"itemid\" = '" ++ id ++ "'")
        ++ ") AND \"time\" >= " ++ decimalText timeFrom ++ "s AND \"time\" <= "
        ++ decimalText timeTill ++ "s GROUP BY time(" ++ decimalText intervalSec
        ++ "s), \"itemid\" fill(linear)" := by
  have hmap : (itemids.map fun id => "\"itemid\" = '" ++ compactQuery id ++ "'")
      = itemids.map fun id => "\"itemid\" = '" ++ id ++ "'" := by
    apply List.map_congr_left
    intro id hid
    simp only [compactQuery_of_no_whitespace id (hids id hid)]
  rw [buildHistoryQuery_text, hmap, numberText_eq_decimalText _ hfrom,
    numberText_eq_decimalText _ htill, numberText_eq_decimalText _ hsec]
  simp only [if_true, JsValue.render, compactQuery_of_no_whitespace table htable]
  rfl

set_option maxRecDepth 100000 in
/-- The example of claim C6: ids `['10010']`, table `history`, 1000, 2000, 60. -/
theorem buildHistoryQuery_avg_text_witness :
    ["10010"] ≠ []
    ∧ (∀ id ∈ ["10010"], ∀ c ∈ id.data, isWhiteSpace c = false)
    ∧ (∀ c ∈ "history".data, isWhiteSpace c = false)
    ∧ (1000 : Int).natAbs < 2 ^ 53 ∧ (2000 : Int).natAbs < 2 ^ 53
    ∧ (60 : Int).natAbs < 2 ^ 53
    ∧ buildHistoryQuery ["10010"] (JsValue.str "history") 1000 2000 60 (JsValue.str "AVG")
      = "SELECT MEAN(\"value\") FROM \"history\" WHERE (\"itemid\" = '10010') AND \"time\" >= 1000s AND \"time\" <= 2000s GROUP BY time(60s), \"itemid\" fill(linear)" :=
  ⟨by decide, by decide, by decide, by decide, by decide, by decide,
    buildHistoryQuery_avg_text ["10010"] "history" 1000 2000 60 (by decide) (by decide)
      (by decide) (by decide) (by decide) (by decide)⟩

set_option maxRecDepth 100000 in
/-- Claim C7, evaluated at the aggregation mode `median`: `consolidateByFunc['median']` is
undefined and is written as such into the select clause, by `getHistory` and by `getTrends`,
while the mode `avg` gives `MEAN`. -/
theorem unknown_mode_is_not_avg {α : Type} (client : Client α) (fuel : Nat) :
    (getHistory client fuel [⟨"10010", "0"⟩] 1000 2000
        ⟨60000, ConsolidateBy.str "median"⟩).queries
      = ["SELECT undefined(\"value\") FROM \"history\" WHERE (\"itemid\" = '10010') AND \"time\" >= 1000s AND \"time\" <= 2000s GROUP BY time(60s), \"itemid\" fill(linear)"]
    ∧ (getHistory client fuel [⟨"10010", "0"⟩] 1000 2000
        ⟨60000, ConsolidateBy.str "avg"⟩).queries
      = ["SELECT MEAN(\"value\") FROM \"history\" WHERE (\"itemid\" = '10010') AND \"time\" >= 1000s AND \"time\" <= 2000s GROUP BY time(60s), \"itemid\" fill(linear)"]
    ∧ (getTrends client fuel [⟨"10010", "0"⟩] 1000 2000
        ⟨60000, ConsolidateBy.str "median"⟩).queries
      = ["SELECT undefined(\"value_avg\") FROM \"trends\" WHERE (\"itemid\" = '10010') AND \"time\" >= 1000s AND \"time\" <= 2000s GROUP BY time(60s)"]
    ∧ (getTrends client fuel [⟨"10010", "0"⟩] 1000 2000
        ⟨60000, ConsolidateBy.str "avg"⟩).queries
      = ["SELECT MEAN(\"value_avg\") FROM \"trends\" WHERE (\"itemid\" = '10010') AND \"time\" >= 1000s AND \"time\" <= 2000s GROUP BY time(60s)"] := by
  refine ⟨?_, ?_, ?_, ?_⟩ <;> rfl

/-- Claim C8: with the aggregation mode omitted (undefined, null or the empty string),
`getHistory` and `getTrends` submit the same queries, and return the same, as with the mode
`avg`, for every client, item list, time window and resolution. -/
theorem omitted_mode_is_avg {α : Type} (client : Client α) (fuel : Nat) (items : List Item)
    (timeFrom timeTill intervalMs : Int) :
    (getHistory client fuel items timeFrom timeTill ⟨intervalMs, ConsolidateBy.undefined⟩
      = getHistory client fuel items timeFrom timeTill ⟨intervalMs, ConsolidateBy.str "avg"⟩)
    ∧ (getHistory client fuel items timeFrom timeTill ⟨intervalMs, ConsolidateBy.null⟩
      = getHistory client fuel items timeFrom timeTill ⟨intervalMs, ConsolidateBy.str "avg"⟩)
    ∧ (getHistory client fuel items timeFrom timeTill ⟨intervalMs, ConsolidateBy.str ""⟩
      = getHistory client fuel items timeFrom timeTill ⟨intervalMs, ConsolidateBy.str "avg"⟩)
    ∧ (getTrends client fuel items timeFrom timeTill ⟨intervalMs, ConsolidateBy.undefined⟩
      = getTrends client fuel items timeFrom timeTill ⟨intervalMs, ConsolidateBy.str "avg"⟩)
    ∧ (getTrends client fuel items timeFrom timeTill ⟨intervalMs, ConsolidateBy.null⟩
      = getTrends client fuel items timeFrom timeTill ⟨intervalMs, ConsolidateBy.str "avg"⟩)
    ∧ (getTrends client fuel items timeFrom timeTill ⟨intervalMs, ConsolidateBy.str ""⟩
      = getTrends client fuel items timeFrom timeTill ⟨intervalMs, ConsolidateBy.str "avg"⟩) := by
  have h1 : ConsolidateBy.undefined.orAvg = (ConsolidateBy.str "avg").orAvg := by decide
  have h2 : ConsolidateBy.null.orAvg = (ConsolidateBy.str "avg").orAvg := by decide
  have h3 : (ConsolidateBy.str "").orAvg = (ConsolidateBy.str "avg").orAvg := by decide
  simp only [getHistory, getTrends, h1, h2, h3, and_self]

theorem bucket_suffix_split (pre width tail : String) :
    pre ++ "s GROUP BY time(" ++ width ++ tail
      = (pre ++ "s") ++ " GROUP BY time(" ++ width ++ tail := by
  apply String.ext
  simp

set_option maxRecDepth 100000 in
/-- Claim C9, at the resolution `2^62 + 5120` ms, which is a double: the quotient
4611686018427393.024 is rounded to the double 4611686018427393 before the ceiling is taken,
so `time(4611686018427393s)` is written, and 1000 times this width is less than the
resolution; the least integer `n` with `1000 * n ≥ intervalMs` is 4611686018427394. -/
theorem bucket_width_below_ceiling :
    (getTrends exampleClient 2 [⟨"10010", "0"⟩] 1000 2000
        ⟨4611686018427393024, ConsolidateBy.str "avg"⟩).queries
      = ["SELECT MEAN(\"value_avg\") FROM \"trends\" WHERE (\"itemid\" = '10010') AND \"time\" >= 1000s AND \"time\" <= 2000s GROUP BY time(4611686018427393s)"]
    ∧ (getHistory exampleClient 2 [⟨"10010", "0"⟩] 1000 2000
        ⟨4611686018427393024, ConsolidateBy.str "avg"⟩).queries
      = ["SELECT MEAN(\"value\") FROM \"history\" WHERE (\"itemid\" = '10010') AND \"time\" >= 1000s AND \"time\" <= 2000s GROUP BY time(4611686018427393s), \"itemid\" fill(linear)"]
    ∧ ceilSeconds 4611686018427393024 = 4611686018427393
    ∧ ¬ ((4611686018427393024 : Int) ≤ 1000 * 4611686018427393)
    ∧ (4611686018427393024 : Int) ≤ 1000 * 4611686018427394 := by
  refine ⟨by rfl, by rfl, by decide, by decide, by decide⟩

/-- Claim C9, amended: for every non-negative integer resolution `intervalMs` below `2^53`
the bucket width `n` written as `time(<n>s)`, in decimal digits, at the end of every query of
`getHistory` and of `getTrends` is the ceiling of `intervalMs / 1000`, the least integer `n`
with `1000 * n ≥ intervalMs`; 1500 ms gives `time(2s)` and 60000 ms gives `time(60s)`. -/
theorem bucket_width_is_ceiling {α : Type} (client : Client α) (fuel : Nat)
    (items : List Item) (timeFrom timeTill intervalMs : Int) (consolidateBy : ConsolidateBy)
    (h0 : 0 ≤ intervalMs) (hb : intervalMs < 2 ^ 53) :
    (intervalMs ≤ 1000 * ceilSeconds intervalMs
      ∧ ∀ m : Int, intervalMs ≤ 1000 * m → ceilSeconds intervalMs ≤ m)
    ∧ (∀ q ∈ (getHistory client fuel items timeFrom timeTill
          ⟨intervalMs, consolidateBy⟩).queries,
        ∃ pre : String, q = pre ++ " GROUP BY time(" ++ decimalText (ceilSeconds intervalMs)
          ++ "s), \"itemid\" fill(linear)")
    ∧ (∀ q ∈ (getTrends client fuel items timeFrom timeTill
          ⟨intervalMs, consolidateBy⟩).queries,
        ∃ pre : String, q = pre ++ " GROUP BY time(" ++ decimalText (ceilSeconds intervalMs)
          ++ "s)")
    ∧ " GROUP BY time(" ++ decimalText (ceilSeconds 1500) ++ "s)" = " GROUP BY time(2s)"
    ∧ " GROUP BY time(" ++ decimalText (ceilSeconds 60000) ++ "s)" = " GROUP BY time(60s)" := by
  have hb' : intervalMs < 9007199254740992 := by
    have h53 : (2 : Int) ^ 53 = 9007199254740992 := by norm_num
    rw [h53] at hb
    exact hb
  have hc := ceilSeconds_exact intervalMs h0 hb'
  have htext : numberText (ceilSeconds intervalMs) = decimalText (ceilSeconds intervalMs) := by
    apply numberText_eq_decimalText
    have h53 : (2 : Nat) ^ 53 = 9007199254740992 := by norm_num
    rw [h53, hc]
    omega
  refine ⟨⟨?_, ?_⟩, ?_, ?_, by decide, by decide⟩
  · rw [hc]; omega
  · intro m hm; rw [hc]; omega
  · intro q hq
    rw [getHistory_queries] at hq
    simp only [List.mem_map] at hq
    obtain ⟨e, _, rfl⟩ := hq
    rw [buildHistoryQuery_text, htext]
    exact ⟨_, bucket_suffix_split _ _ _⟩
  · intro q hq
    rw [getTrends_queries] at hq
    simp only [List.mem_map] at hq
    obtain ⟨e, _, rfl⟩ := hq
    rw [buildTrendsQuery_text, htext]
    exact ⟨_, bucket_suffix_split _ _ _⟩

set_option maxRecDepth 100000 in
/-- The resolution 1500 ms with the example items, for claim C9. -/
theorem bucket_width_is_ceiling_witness :
    (0 : Int) ≤ 1500 ∧ (1500 : Int) < 2 ^ 53
    ∧ ((1500 : Int) ≤ 1000 * ceilSeconds 1500
      ∧ ∀ m : Int, 1500 ≤ 1000 * m → ceilSeconds 1500 ≤ m)
    ∧ (∀ q ∈ (getHistory exampleClient 2 exampleItems 1000 2000
          ⟨1500, ConsolidateBy.str "avg"⟩).queries,
        ∃ pre : String, q = pre ++ " GROUP BY time(" ++ decimalText (ceilSeconds 1500)
          ++ "s), \"itemid\" fill(linear)")
    ∧ (∀ q ∈ (getTrends exampleClient 2 exampleItems 1000 2000
          ⟨1500, ConsolidateBy.str "avg"⟩).queries,
        ∃ pre : String, q = pre ++ " GROUP BY time(" ++ decimalText (ceilSeconds 1500)
          ++ "s)")
    ∧ " GROUP BY time(" ++ decimalText (ceilSeconds 1500) ++ "s)" = " GROUP BY time(2s)"
    ∧ " GROUP BY time(" ++ decimalText (ceilSeconds 60000) ++ "s)" = " GROUP BY time(60s)" :=
  ⟨by decide, by decide,
    bucket_width_is_ceiling exampleClient 2 exampleItems 1000 2000 1500
      (ConsolidateBy.str "avg") (by decide) (by decide)⟩

/-! ## Theorems: the partition of the items into queries -/

theorem tab_not_in_text (part whole : String) (hpart : '\t' ∈ part.data)
    (hwhole : '\t' ∉ whole.data) : ¬ occursIn part whole := by
  rintro ⟨pre, post, h⟩
  apply hwhole
  rw [h]
  simp [String.data_append, hpart]

set_option maxRecDepth 100000 in
/-- Claim C5, at two inputs. With the id 10010 under the value types 0 and 3, its predicate
is written into both submitted queries, not into exactly one. With the id `100\t10`, the
query holds the predicate of `100 10` and the predicate of the id as given occurs in no
submitted query. -/
theorem getHistory_id_in_two_queries :
    (getHistory exampleClient 2 [⟨"10010", "0"⟩, ⟨"10010", "3"⟩] 1000 2000
        ⟨60000, ConsolidateBy.str "avg"⟩).queries
      = ["SELECT MEAN(\"value\") FROM \"history\" WHERE (\"itemid\" = '10010') AND \"time\" >= 1000s AND \"time\" <= 2000s GROUP BY time(60s), \"itemid\" fill(linear)",
         "SELECT MEAN(\"value\") FROM \"history_uint\" WHERE (\"itemid\" = '10010') AND \"time\" >= 1000s AND \"time\" <= 2000s GROUP BY time(60s), \"itemid\" fill(linear)"]
    ∧ occursIn "\"itemid\" = '10010'"
        "SELECT MEAN(\"value\") FROM \"history\" WHERE (\"itemid\" = '10010') AND \"time\" >= 1000s AND \"time\" <= 2000s GROUP BY time(60s), \"itemid\" fill(linear)"
    ∧ occursIn "\"itemid\" = '10010'"
        "SELECT MEAN(\"value\") FROM \"history_uint\" WHERE (\"itemid\" = '10010') AND \"time\" >= 1000s AND \"time\" <= 2000s GROUP BY time(60s), \"itemid\" fill(linear)"
    ∧ (getHistory exampleClient 2 [⟨"100\t10", "0"⟩] 1000 2000
        ⟨60000, ConsolidateBy.str "avg"⟩).queries
      = ["SELECT MEAN(\"value\") FROM \"history\" WHERE (\"itemid\" = '100 10') AND \"time\" >= 1000s AND \"time\" <= 2000s GROUP BY time(60s), \"itemid\" fill(linear)"]
    ∧ ¬ occursIn "\"itemid\" = '100\t10'"
        "SELECT MEAN(\"value\") FROM \"history\" WHERE (\"itemid\" = '100 10') AND \"time\" >= 1000s AND \"time\" <= 2000s GROUP BY time(60s), \"itemid\" fill(linear)" := by
  refine ⟨by rfl, ?_, ?_, by rfl, ?_⟩
  · exact ⟨"SELECT MEAN(\"value\") FROM \"history\" WHERE (",
      ") AND \"time\" >= 1000s AND \"time\" <= 2000s GROUP BY time(60s), \"itemid\" fill(linear)",
      by decide⟩
  · exact ⟨"SELECT MEAN(\"value\") FROM \"history_uint\" WHERE (",
      ") AND \"time\" >= 1000s AND \"time\" <= 2000s GROUP BY time(60s), \"itemid\" fill(linear)",
      by decide⟩
  · exact tab_not_in_text _ _ (by decide) (by decide)

/-- Claim C5, amended: for every item list passed to `getHistory` in which no item id
contains whitespace and no item id occurs under two value types, the submitted queries are,
one for each value type that occurs (`keys` lists them once each), the text that reads
`FROM` the table `HISTORY_TO_TABLE_MAP` gives that value type and whose where clause is the
predicates `"itemid" = '<id>'` of the items of that value type in their input order, joined
by `' OR '` inside one pair of parentheses; so the id of an input item is among the
predicates of exactly one submitted query, the one of its value type. The table map sends
0, 1, 2, 3, 4 to history, history_str, history_log, history_uint, history_text. -/
theorem getHistory_partitions_items {α : Type} (client : Client α) (fuel : Nat)
    (items : List Item) (timeFrom timeTill : Int) (options : QueryOptions)
    (hids : ∀ it ∈ items, ∀ c ∈ it.itemid.data, isWhiteSpace c = false)
    (hone : ∀ it ∈ items, ∀ it' ∈ items,
      it.itemid = it'.itemid → it.value_type = it'.value_type) :
    (∃ keys : List String,
        keys.Nodup
        ∧ (∀ vt, vt ∈ keys ↔ ∃ it ∈ items, it.value_type = vt)
        ∧ (getHistory client fuel items timeFrom timeTill options).queries
          = keys.map (fun vt =>
              "SELECT "
              ++ String.mk (collapse true
                  (if jsGet consolidateByFunc options.consolidateBy.orAvg = JsValue.str "AVG"
                    then JsValue.str "MEAN"
                    else jsGet consolidateByFunc options.consolidateBy.orAvg).render.data)
              ++ "(\"value\") FROM \""
              ++ compactQuery (jsGet HISTORY_TO_TABLE_MAP vt).render ++ "\" WHERE ("
              ++ " OR ".intercalate
                  (((items.filter fun it => it.value_type = vt).map Item.itemid).map
                    fun id => "\"itemid\" = '" ++ id ++ "'")
              ++ ") AND \"time\" >= " ++ numberText timeFrom ++ "s AND \"time\" <= "
              ++ numberText timeTill ++ "s GROUP BY time("
              ++ numberText (ceilSeconds options.intervalMs)
              ++ "s), \"itemid\" fill(linear)")
        ∧ ∀ it ∈ items, ∀ vt ∈ keys,
            (it.itemid ∈ (items.filter fun it' => it'.value_type = vt).map Item.itemid
              ↔ vt = it.value_type))
    ∧ compactQuery (jsGet HISTORY_TO_TABLE_MAP "0").render = "history"
    ∧ compactQuery (jsGet HISTORY_TO_TABLE_MAP "1").render = "history_str"
    ∧ compactQuery (jsGet HISTORY_TO_TABLE_MAP "2").render = "history_log"
    ∧ compactQuery (jsGet HISTORY_TO_TABLE_MAP "3").render = "history_uint"
    ∧ compactQuery (jsGet HISTORY_TO_TABLE_MAP "4").render = "history_text" := by
  obtain ⟨hnd, hkeys, hval⟩ := ownEntries_groupBy_keys items
  refine ⟨⟨(ownEntries (groupBy items)).map Prod.fst, hnd, hkeys, ?_, ?_⟩,
    by decide, by decide, by decide, by decide, by decide⟩
  · rw [getHistory_queries, List.map_map]
    apply List.map_congr_left
    intro e he
    simp only [Function.comp]
    rw [buildHistoryQuery_text, hval e he]
    have hmap : (((items.filter fun it => it.value_type = e.1).map Item.itemid).map
          fun id => "\"itemid\" = '" ++ compactQuery id ++ "'")
        = ((items.filter fun it => it.value_type = e.1).map Item.itemid).map
          fun id => "\"itemid\" = '" ++ id ++ "'" := by
      apply List.map_congr_left
      intro id hid
      obtain ⟨it, hit, rfl⟩ := List.mem_map.1 hid
      simp only [compactQuery_of_no_whitespace it.itemid
        (hids it (List.mem_of_mem_filter hit))]
    rw [hmap]
  · intro it hit vt _
    constructor
    · intro h
      obtain ⟨it', hit', hid⟩ := List.mem_map.1 h
      have hvt : it'.value_type = vt := by simpa using (List.mem_filter.1 hit').2
      rw [← hvt]
      exact hone it' (List.mem_of_mem_filter hit') it hit hid
    · intro h
      exact List.mem_map_of_mem Item.itemid (List.mem_filter.2 ⟨hit, by simp [h]⟩)

set_option maxRecDepth 100000 in
/-- The example items 10010 of value type 0 and 10011 of value type 3, for claim C5. -/
theorem getHistory_partitions_items_witness :
    (∀ it ∈ exampleItems, ∀ c ∈ it.itemid.data, isWhiteSpace c = false)
    ∧ (∀ it ∈ exampleItems, ∀ it' ∈ exampleItems,
        it.itemid = it'.itemid → it.value_type = it'.value_type)
    ∧ (∃ keys : List String,
        keys.Nodup
        ∧ (∀ vt, vt ∈ keys ↔ ∃ it ∈ exampleItems, it.value_type = vt)
        ∧ (getHistory exampleClient 2 exampleItems 1000 2000
            ⟨60000, ConsolidateBy.str "avg"⟩).queries
          = keys.map (fun vt =>
              "SELECT "
              ++ String.mk (collapse true
                  (if jsGet consolidateByFunc
                        (QueryOptions.mk 60000 (ConsolidateBy.str "avg")).consolidateBy.orAvg
                      = JsValue.str "AVG"
                    then JsValue.str "MEAN"
                    else jsGet consolidateByFunc
                      (QueryOptions.mk 60000
                        (ConsolidateBy.str "avg")).consolidateBy.orAvg).render.data)
              ++ "(\"value\") FROM \""
              ++ compactQuery (jsGet HISTORY_TO_TABLE_MAP vt).render ++ "\" WHERE ("
              ++ " OR ".intercalate
                  (((exampleItems.filter fun it => it.value_type = vt).map Item.itemid).map
                    fun id => "\"itemid\" = '" ++ id ++ "'")
              ++ ") AND \"time\" >= " ++ numberText 1000 ++ "s AND \"time\" <= "
              ++ numberText 2000 ++ "s GROUP BY time("
              ++ numberText (ceilSeconds
                  (QueryOptions.mk 60000 (ConsolidateBy.str "avg")).intervalMs)
              ++ "s), \"itemid\" fill(linear)")
        ∧ ∀ it ∈ exampleItems, ∀ vt ∈ keys,
            (it.itemid ∈ (exampleItems.filter fun it' => it'.value_type = vt).map Item.itemid
              ↔ vt = it.value_type))
    ∧ compactQuery (jsGet HISTORY_TO_TABLE_MAP "0").render = "history"
    ∧ compactQuery (jsGet HISTORY_TO_TABLE_MAP "1").render = "history_str"
    ∧ compactQuery (jsGet HISTORY_TO_TABLE_MAP "2").render = "history_log"
    ∧ compactQuery (jsGet HISTORY_TO_TABLE_MAP "3").render = "history_uint"
    ∧ compactQuery (jsGet HISTORY_TO_TABLE_MAP "4").render = "history_text" :=
  ⟨by decide, by decide,
    getHistory_partitions_items exampleClient 2 exampleItems 1000 2000
      ⟨60000, ConsolidateBy.str "avg"⟩ (by decide) (by decide)⟩

/-! ## Theorems: select clauses and the difference of history and trend queries -/

set_option maxRecDepth 20000 in
/-- Claim C15: for all item ids, table, `timeFrom`, `timeTill`, `intervalSec` and aggregation
function, the history query is the trend query over the value column `value` followed by
`, "itemid" fill(linear)`; and the trend query, for any value column, ends with
`GROUP BY time(<intervalSec>s)`, with nothing after it. -/
theorem history_is_trends_plus_grouping (itemids : List String) (table : JsValue)
    (timeFrom timeTill intervalSec : Int) (aggFunction valueColumn : JsValue) :
    buildHistoryQuery itemids table timeFrom timeTill intervalSec aggFunction
      = buildTrendsQuery itemids table timeFrom timeTill intervalSec aggFunction
          (JsValue.str "value") ++ ", \"itemid\" fill(linear)"
    ∧ ∃ pre : String,
        buildTrendsQuery itemids table timeFrom timeTill intervalSec aggFunction valueColumn
          = pre ++ " GROUP BY time(" ++ numberText intervalSec ++ "s)" := by
  constructor
  · rw [buildHistoryQuery_text, buildTrendsQuery_text]
    have hv : compactQuery (JsValue.str "value").render = "value" := by decide
    rw [hv]
    apply String.ext
    simp [String.data_append, List.append_assoc]
  · rw [buildTrendsQuery_text]
    exact ⟨_, bucket_suffix_split _ _ _⟩

set_option maxRecDepth 20000 in
/-- A history query starts with its select clause when the aggregation function resolves
to a name without whitespace. -/
theorem buildHistoryQuery_starts (itemids : List String) (table : JsValue)
    (timeFrom timeTill intervalSec : Int) (aggFunction : JsValue) (F : String)
    (hF : (if aggFunction = JsValue.str "AVG" then JsValue.str "MEAN" else aggFunction)
      = JsValue.str F)
    (hws : ∀ c ∈ F.data, isWhiteSpace c = false) :
    ∃ rest : String,
      buildHistoryQuery itemids table timeFrom timeTill intervalSec aggFunction
        = "SELECT " ++ F ++ "(\"value\")" ++ rest := by
  rw [buildHistoryQuery_text, hF]
  refine ⟨" FROM \"" ++ compactQuery table.render ++ "\" WHERE ("
      ++ " OR ".intercalate (itemids.map fun id => "\"itemid\" = '" ++ compactQuery id ++ "'")
      ++ ") AND \"time\" >= " ++ numberText timeFrom ++ "s AND \"time\" <= "
      ++ numberText timeTill ++ "s GROUP BY time(" ++ numberText intervalSec
      ++ "s), \"itemid\" fill(linear)", ?_⟩
  apply String.ext
  simp [JsValue.render, collapse_of_no_whitespace true F.data hws, String.data_append,
    List.append_assoc]

/-- Claim C14: for each aggregation mode in avg, min, max, sum, count, every query
`getHistory` submits starts with `SELECT F("value")`, where `F` is `MEAN` for avg and the
upper-cased mode name `MIN`, `MAX`, `SUM`, `COUNT` for the other four. -/
theorem getHistory_select_clause {α : Type} (client : Client α) (fuel : Nat)
    (items : List Item) (timeFrom timeTill intervalMs : Int) :
    (∀ q ∈ (getHistory client fuel items timeFrom timeTill
          ⟨intervalMs, ConsolidateBy.str "avg"⟩).queries,
        ∃ rest : String, q = "SELECT MEAN(\"value\")" ++ rest)
    ∧ (∀ q ∈ (getHistory client fuel items timeFrom timeTill
          ⟨intervalMs, ConsolidateBy.str "min"⟩).queries,
        ∃ rest : String, q = "SELECT MIN(\"value\")" ++ rest)
    ∧ (∀ q ∈ (getHistory client fuel items timeFrom timeTill
          ⟨intervalMs, ConsolidateBy.str "max"⟩).queries,
        ∃ rest : String, q = "SELECT MAX(\"value\")" ++ rest)
    ∧ (∀ q ∈ (getHistory client fuel items timeFrom timeTill
          ⟨intervalMs, ConsolidateBy.str "sum"⟩).queries,
        ∃ rest : String, q = "SELECT SUM(\"value\")" ++ rest)
    ∧ (∀ q ∈ (getHistory client fuel items timeFrom timeTill
          ⟨intervalMs, ConsolidateBy.str "count"⟩).queries,
        ∃ rest : String, q = "SELECT COUNT(\"value\")" ++ rest) := by
  refine ⟨?_, ?_, ?_, ?_, ?_⟩
  · intro q hq
    rw [getHistory_queries] at hq
    simp only [List.mem_map] at hq
    obtain ⟨e, _, rfl⟩ := hq
    exact buildHistoryQuery_starts _ _ _ _ _ _ "MEAN" (by decide) (by decide)
  · intro q hq
    rw [getHistory_queries] at hq
    simp only [List.mem_map] at hq
    obtain ⟨e, _, rfl⟩ := hq
    exact buildHistoryQuery_starts _ _ _ _ _ _ "MIN" (by decide) (by decide)
  · intro q hq
    rw [getHistory_queries] at hq
    simp only [List.mem_map] at hq
    obtain ⟨e, _, rfl⟩ := hq
    exact buildHistoryQuery_starts _ _ _ _ _ _ "MAX" (by decide) (by decide)
  · intro q hq
    rw [getHistory_queries] at hq
    simp only [List.mem_map] at hq
    obtain ⟨e, _, rfl⟩ := hq
    exact buildHistoryQuery_starts _ _ _ _ _ _ "SUM" (by decide) (by decide)
  · intro q hq
    rw [getHistory_queries] at hq
    simp only [List.mem_map] at hq
    obtain ⟨e, _, rfl⟩ := hq
    exact buildHistoryQuery_starts _ _ _ _ _ _ "COUNT" (by decide) (by decide)

set_option maxRecDepth 20000 in
/-- The text of a trend query whose aggregation function, value column and table resolve
to names without whitespace. -/
theorem buildTrendsQuery_text_plain (itemids : List String) (table : JsValue)
    (timeFrom timeTill intervalSec : Int) (aggFunction valueColumn : JsValue)
    (F col tbl select : String)
    (hsel : select = "SELECT " ++ F ++ "(\"" ++ col ++ "\")")
    (hF : (if aggFunction = JsValue.str "AVG" then JsValue.str "MEAN" else aggFunction)
      = JsValue.str F)
    (hcol : valueColumn = JsValue.str col) (htbl : table = JsValue.str tbl)
    (hFws : ∀ c ∈ F.data, isWhiteSpace c = false)
    (hcolws : ∀ c ∈ col.data, isWhiteSpace c = false)
    (htblws : ∀ c ∈ tbl.data, isWhiteSpace c = false) :
    buildTrendsQuery itemids table timeFrom timeTill intervalSec aggFunction valueColumn
      = select ++ " FROM \"" ++ tbl ++ "\" WHERE ("
        ++ " OR ".intercalate (itemids.map fun id => "\"itemid\" = '" ++ compactQuery id ++ "'")
        ++ ") AND \"time\" >= " ++ numberText timeFrom ++ "s AND \"time\" <= "
        ++ numberText timeTill ++ "s GROUP BY time(" ++ numberText intervalSec ++ "s)" := by
  rw [buildTrendsQuery_text, hF, hcol, htbl, hsel]
  simp only [JsValue.render, compactQuery_of_no_whitespace col hcolws,
    compactQuery_of_no_whitespace tbl htblws, collapse_of_no_whitespace true F.data hFws]
  apply String.ext
  simp [String.data_append, List.append_assoc]

/-- Claim C13: for every `getTrends` call whose items have value type 0 or 3 and every
aggregation mode of avg, min, max, sum, count, the submitted queries are, one per value type
that occurs, the text that starts with the select clause of the mode
(`SELECT MEAN("value_avg")`, `SELECT MIN("value_min")`, `SELECT MAX("value_max")`,
`SELECT SUM("num*value_avg")`, `SELECT COUNT("value_avg")`) and reads from `trends` for
value type 0 and from `trends_uint` for value type 3, over the ids of the items of that
value type. -/
theorem getTrends_select_and_table {α : Type} (client : Client α) (fuel : Nat)
    (items : List Item) (timeFrom timeTill intervalMs : Int) (mode select : String)
    (hmode : (mode, select) ∈ specTrendSelect)
    (hitems : ∀ it ∈ items, it.value_type = "0" ∨ it.value_type = "3") :
    ∃ keys : List String,
      keys.Nodup
      ∧ (∀ vt, vt ∈ keys ↔ ∃ it ∈ items, it.value_type = vt)
      ∧ (getTrends client fuel items timeFrom timeTill
            ⟨intervalMs, ConsolidateBy.str mode⟩).queries
        = keys.map fun vt =>
            select ++ " FROM \"" ++ specTrendTable vt ++ "\" WHERE ("
              ++ " OR ".intercalate
                  (((items.filter fun it => it.value_type = vt).map Item.itemid).map
                    fun id => "\"itemid\" = '" ++ compactQuery id ++ "'")
              ++ ") AND \"time\" >= " ++ numberText timeFrom ++ "s AND \"time\" <= "
              ++ numberText timeTill ++ "s GROUP BY time("
              ++ numberText (ceilSeconds intervalMs) ++ "s)" := by
  obtain ⟨hnd, hkeys, hval⟩ := ownEntries_groupBy_keys items
  refine ⟨(ownEntries (groupBy items)).map Prod.fst, hnd, hkeys, ?_⟩
  rw [getTrends_queries, List.map_map]
  apply List.map_congr_left
  intro e he
  simp only [Function.comp]
  rw [← hval e he]
  have hvt : e.1 = "0" ∨ e.1 = "3" := by
    obtain ⟨it, hit, h⟩ := (hkeys e.1).1 (List.mem_map_of_mem Prod.fst he)
    rw [← h]
    exact hitems it hit
  simp only [specTrendSelect, List.mem_cons, Prod.mk.injEq, List.mem_singleton,
    List.not_mem_nil, or_false] at hmode
  rcases hmode with ⟨rfl, rfl⟩ | ⟨rfl, rfl⟩ | ⟨rfl, rfl⟩ | ⟨rfl, rfl⟩ | ⟨rfl, rfl⟩
  · rcases hvt with h | h <;> rw [h] <;>
      refine buildTrendsQuery_text_plain _ _ _ _ _ _ _ "MEAN" "value_avg" _ _
        ?_ ?_ ?_ ?_ ?_ ?_ ?_ <;> decide
  · rcases hvt with h | h <;> rw [h] <;>
      refine buildTrendsQuery_text_plain _ _ _ _ _ _ _ "MIN" "value_min" _ _
        ?_ ?_ ?_ ?_ ?_ ?_ ?_ <;> decide
  · rcases hvt with h | h <;> rw [h] <;>
      refine buildTrendsQuery_text_plain _ _ _ _ _ _ _ "MAX" "value_max" _ _
        ?_ ?_ ?_ ?_ ?_ ?_ ?_ <;> decide
  · rcases hvt with h | h <;> rw [h] <;>
      refine buildTrendsQuery_text_plain _ _ _ _ _ _ _ "SUM" "num*value_avg" _ _
        ?_ ?_ ?_ ?_ ?_ ?_ ?_ <;> decide
  · rcases hvt with h | h <;> rw [h] <;>
      refine buildTrendsQuery_text_plain _ _ _ _ _ _ _ "COUNT" "value_avg" _ _
        ?_ ?_ ?_ ?_ ?_ ?_ ?_ <;> decide

/-- The example items, of value types 0 and 3, with the mode `count`, for claim C13. -/
theorem getTrends_select_and_table_witness :
    ("count", "SELECT COUNT(\"value_avg\")") ∈ specTrendSelect
    ∧ (∀ it ∈ exampleItems, it.value_type = "0" ∨ it.value_type = "3")
    ∧ ∃ keys : List String,
      keys.Nodup
      ∧ (∀ vt, vt ∈ keys ↔ ∃ it ∈ exampleItems, it.value_type = vt)
      ∧ (getTrends exampleClient 2 exampleItems 1000 2000
            ⟨60000, ConsolidateBy.str "count"⟩).queries
        = keys.map fun vt =>
            "SELECT COUNT(\"value_avg\")" ++ " FROM \"" ++ specTrendTable vt ++ "\" WHERE ("
              ++ " OR ".intercalate
                  (((exampleItems.filter fun it => it.value_type = vt).map Item.itemid).map
                    fun id => "\"itemid\" = '" ++ compactQuery id ++ "'")
              ++ ") AND \"time\" >= " ++ numberText 1000 ++ "s AND \"time\" <= "
              ++ numberText 2000 ++ "s GROUP BY time("
              ++ numberText (ceilSeconds 60000) ++ "s)" :=
  ⟨by decide, by decide,
    getTrends_select_and_table exampleClient 2 exampleItems 1000 2000 60000 "count"
      "SELECT COUNT(\"value_avg\")" (by decide) (by decide)⟩

/-! ## Theorems: whitespace of the query text -/

theorem collapse_true_eq (xs : List Char) :
    collapse true xs = collapse false (xs.dropWhile isWhiteSpace) := by
  induction xs with
  | nil => rfl
  | cons c cs ih =>
    by_cases hc : isWhiteSpace c = true
    · simp [collapse, hc, ih]
    · simp [collapse, hc]

theorem collapse_eq_replaceRuns (xs : List Char) :
    collapse false xs = replaceRuns isWhiteSpace xs := by
  suffices h : ∀ n (xs : List Char), xs.length ≤ n →
      collapse false xs = replaceRuns isWhiteSpace xs from h xs.length xs (Nat.le_refl _)
  intro n
  induction n with
  | zero =>
    intro xs hxs
    have : xs = [] := List.length_eq_zero.1 (Nat.le_zero.1 hxs)
    subst this
    rw [replaceRuns]
    rfl
  | succ n ih =>
    intro xs hxs
    cases xs with
    | nil =>
      rw [replaceRuns]
      rfl
    | cons c cs =>
      have hcs : cs.length ≤ n := by simpa using hxs
      rw [replaceRuns]
      cases hc : isWhiteSpace c with
      | true =>
        have hd : (cs.dropWhile isWhiteSpace).length ≤ n :=
          Nat.le_trans (List.dropWhile_sublist isWhiteSpace).length_le hcs
        simp only [collapse, hc, if_true, Bool.false_eq_true, if_false]
        rw [collapse_true_eq, ih _ hd]
      | false =>
        simp only [collapse, hc, Bool.false_eq_true, if_false]
        rw [ih _ hcs]

/-- The output of the scan holds no whitespace but the space, never two spaces in a row, and
does not start with a space when the scan starts inside a run. -/
theorem collapse_shape (b : Bool) (xs : List Char) :
    (∀ c ∈ collapse b xs, isWhiteSpace c = true → c = ' ')
    ∧ (collapse b xs).Chain' (fun x y => ¬ (x = ' ' ∧ y = ' '))
    ∧ (b = true → (collapse b xs).head? ≠ some ' ') := by
  induction xs generalizing b with
  | nil => simp [collapse]
  | cons c cs ih =>
    cases hc : isWhiteSpace c with
    | true =>
      cases b with
      | true =>
        obtain ⟨h1, h2, h3⟩ := ih true
        simp only [collapse, hc, if_true]
        exact ⟨h1, h2, fun _ => h3 rfl⟩
      | false =>
        obtain ⟨h1, h2, h3⟩ := ih true
        simp only [collapse, hc, if_true, Bool.false_eq_true, if_false]
        refine ⟨?_, ?_, fun h => absurd h (by decide)⟩
        · intro x hx hws
          rcases List.mem_cons.1 hx with hx | hx
          · exact hx
          · exact h1 x hx hws
        · rw [List.chain'_cons']
          refine ⟨?_, h2⟩
          intro y hy hxy
          apply h3 rfl
          rw [hxy.2] at hy
          simpa using hy
    | false =>
      obtain ⟨h1, h2, _⟩ := ih false
      have hne : c ≠ ' ' := by
        intro h
        rw [h] at hc
        exact absurd hc (by decide)
      simp only [collapse, hc, Bool.false_eq_true, if_false]
      refine ⟨?_, ?_, ?_⟩
      · intro x hx hws
        rcases List.mem_cons.1 hx with hx | hx
        · rw [hx, hc] at hws
          exact absurd hws (by decide)
        · exact h1 x hx hws
      · rw [List.chain'_cons']
        exact ⟨fun y _ hxy => hne hxy.1, h2⟩
      · intro _
        simp [hne]

/-- Claim C16: for all inputs, the text returned by `buildHistoryQuery` and by
`buildTrendsQuery` holds no whitespace character other than the space and never two spaces in
a row; and `compactQuery` replaces every maximal run of whitespace by exactly one space and
leaves all other characters unchanged and in order. -/
theorem query_text_single_spaced (itemids : List String) (table : JsValue)
    (timeFrom timeTill intervalSec : Int) (aggFunction valueColumn : JsValue) :
    ((∀ c ∈ (buildHistoryQuery itemids table timeFrom timeTill intervalSec aggFunction).data,
        isWhiteSpace c = true → c = ' ')
      ∧ (buildHistoryQuery itemids table timeFrom timeTill intervalSec aggFunction).data.Chain'
          (fun x y => ¬ (x = ' ' ∧ y = ' ')))
    ∧ ((∀ c ∈ (buildTrendsQuery itemids table timeFrom timeTill intervalSec aggFunction
          valueColumn).data, isWhiteSpace c = true → c = ' ')
      ∧ (buildTrendsQuery itemids table timeFrom timeTill intervalSec aggFunction
          valueColumn).data.Chain' (fun x y => ¬ (x = ' ' ∧ y = ' ')))
    ∧ ∀ query : String, (compactQuery query).data = replaceRuns isWhiteSpace query.data := by
  refine ⟨?_, ?_, fun query => collapse_eq_replaceRuns query.data⟩
  · exact ⟨(collapse_shape false _).1, (collapse_shape false _).2.1⟩
  · exact ⟨(collapse_shape false _).1, (collapse_shape false _).2.1⟩

/-! ## Theorems: the course of the outer loop -/

theorem seriesLoop_fst {α : Type} (l : List (InfluxSeries α)) (i : Nat)
    (seriesList : List (TimeSeries α)) :
    (seriesLoop l i seriesList).1 = (seriesLoop l i []).1 := by
  induction l generalizing i seriesList with
  | nil => rfl
  | cons s rest ih =>
    cases hv : s.values with
    | none =>
      simp only [seriesLoop, hv]
      rw [ih, ih i ([] ++ _)]
    | some values =>
      simp only [seriesLoop, hv]
      rw [ih, ih _ ([] ++ _)]

theorem resultLoop_succ {α : Type} (results : List (Option (InfluxResult α)))
    (fuel i : Nat) (seriesList : List (TimeSeries α)) :
    resultLoop results (fuel + 1) i seriesList
      = if i < results.length then
          resultLoop results fuel (nextIndex results i) (seriesList ++ pushed results i)
        else some seriesList := by
  by_cases h : i < results.length
  · have hget : results[i]? = some (results.get ⟨i, h⟩) := by
      simp [List.getElem?_eq_getElem h]
    simp only [resultLoop, h, dite_true, if_true, nextIndex, pushed, hget]
    cases hr : results.get ⟨i, h⟩ with
    | none => simp
    | some result =>
      obtain ⟨series⟩ := result
      cases series with
      | none => simp
      | some l =>
        simp only
        have h1 := seriesLoop_fst l i seriesList
        have h2 := seriesLoop_snd l i seriesList
        have h3 := seriesLoop_snd l i []
        rw [show seriesLoop l i seriesList
            = ((seriesLoop l i seriesList).1, (seriesLoop l i seriesList).2) from rfl]
        simp only [h1, h2, h3, List.nil_append]
  · simp [resultLoop, h]

theorem resultLoop_eq_visits {α : Type} (results : List (Option (InfluxResult α)))
    (fuel i : Nat) (seriesList : List (TimeSeries α)) :
    resultLoop results fuel i seriesList
      = (visits results fuel i).map fun t => seriesList ++ (t.map (pushed results)).flatten := by
  induction fuel generalizing i seriesList with
  | zero => rfl
  | succ fuel ih =>
    rw [resultLoop_succ]
    by_cases h : i < results.length
    · simp only [h, if_true, visits, ih, Option.map_map]
      congr 1
      funext t
      simp [List.append_assoc]
    · simp [h, visits]

/-- Claim C18, evaluated at `threeResponses`: the row loop leaves `i` at 1 after every
response, so the outer loop goes from index 0 to index 2 and then tests index 2 again and
again; no amount of fuel lets `handleInfluxHistoryResponse` return. On
`outOfOrderResponses` it returns, after visiting the indices in the order 0, 2, 1. -/
theorem handle_never_returns :
    (∀ fuel, handleInfluxHistoryResponse fuel (some threeResponses) = none)
    ∧ (∀ fuel, visits threeResponses (fuel + 2) 0
        = (visits threeResponses fuel 2).map fun t => 0 :: 2 :: t)
    ∧ (∀ fuel, visits outOfOrderResponses (fuel + 4) 0 = some [0, 2, 1])
    ∧ ∀ fuel, handleInfluxHistoryResponse (fuel + 4) (some outOfOrderResponses)
        = some [⟨"10010", [(5, 1000)]⟩, ⟨"10012", []⟩, ⟨"10011", [(7, 1000), (8, 1060)]⟩] := by
  have hloop : ∀ fuel (acc : List (TimeSeries Int)),
      resultLoop threeResponses fuel 2 acc = none := by
    intro fuel
    induction fuel with
    | zero => intro acc; rfl
    | succ fuel ih =>
      intro acc
      rw [resultLoop_succ]
      have hn : nextIndex threeResponses 2 = 2 := by decide
      simp only [hn, ih]
      simp [threeResponses]
  refine ⟨?_, ?_, ?_, ?_⟩
  · intro fuel
    cases fuel with
    | zero => rfl
    | succ fuel =>
      simp only [handleInfluxHistoryResponse]
      rw [resultLoop_succ]
      have hn : nextIndex threeResponses 0 = 2 := by decide
      simp only [hn, hloop]
      simp [threeResponses]
  · intro fuel
    have h0 : nextIndex threeResponses 0 = 2 := by decide
    have h2 : nextIndex threeResponses 2 = 2 := by decide
    have hl : threeResponses.length = 3 := rfl
    simp only [visits, h0, h2, hl, Option.map_map]
    simp
    rfl
  · intro fuel
    have h0 : nextIndex outOfOrderResponses 0 = 2 := by decide
    have h2 : nextIndex outOfOrderResponses 2 = 1 := by decide
    have h1 : nextIndex outOfOrderResponses 1 = 3 := by decide
    have hl : outOfOrderResponses.length = 3 := rfl
    simp [visits, h0, h1, h2, hl]
  · intro fuel
    simp [handleInfluxHistoryResponse, resultLoop, outOfOrderResponses, seriesLoop, rowLoop]

theorem absent_step {α : Type} (results : List (Option (InfluxResult α))) (i : Nat)
    (hi : i < results.length) (h : isAbsent (results.get ⟨i, hi⟩) = true) :
    nextIndex results i = i + 1 ∧ pushed results i = [] := by
  have hget : results[i]? = some (results.get ⟨i, hi⟩) := by
    simp [List.getElem?_eq_getElem hi]
  simp only [nextIndex, pushed, hget]
  cases hr : results.get ⟨i, hi⟩ with
  | none => simp
  | some result =>
    obtain ⟨series⟩ := result
    cases series with
    | none => simp
    | some l =>
      rw [hr] at h
      simp [isAbsent] at h

theorem resultLoop_all_absent {α : Type} (results : List (Option (InfluxResult α)))
    (h : ∀ r ∈ results, isAbsent r = true) (n : Nat) :
    ∀ (i fuel : Nat) (seriesList : List (TimeSeries α)), results.length - i ≤ n →
      resultLoop results (n + 1 + fuel) i seriesList = some seriesList := by
  induction n with
  | zero =>
    intro i fuel seriesList hn
    rw [show 0 + 1 + fuel = fuel + 1 from by omega, resultLoop_succ, if_neg (by omega)]
  | succ n ih =>
    intro i fuel seriesList hn
    rw [show n + 1 + 1 + fuel = (n + 1 + fuel) + 1 from by omega, resultLoop_succ]
    by_cases hi : i < results.length
    · obtain ⟨h1, h2⟩ := absent_step results i hi (h _ (List.get_mem results i hi))
      rw [if_pos hi, h1, h2, List.append_nil]
      exact ih (i + 1) fuel seriesList (by omega)
    · rw [if_neg hi]

/-- Claim C12, evaluated at `withNullEntry`: with the null entry in place the outer loop
goes from index 0 to index 2 and both series are returned; with the null entry removed the
second response sits at index 1, which the loop jumps over, and only the first series is
returned. A null `results` and a list of absent entries only do give the empty list. -/
theorem null_entry_changes_output :
    (∀ fuel, handleInfluxHistoryResponse (fuel + 3) (some withNullEntry)
        = some [⟨"10010", [(5, 1000)]⟩, ⟨"10011", [(7, 1000), (8, 1060)]⟩])
    ∧ presentResults withNullEntry
        = [some ⟨some [⟨"10010", some [(1000, 5)]⟩]⟩,
           some ⟨some [⟨"10011", some [(1000, 7), (1060, 8)]⟩]⟩]
    ∧ (∀ fuel, handleInfluxHistoryResponse (fuel + 2) (some (presentResults withNullEntry))
        = some [⟨"10010", [(5, 1000)]⟩])
    ∧ (∀ (β : Type) (fuel : Nat),
        handleInfluxHistoryResponse fuel (none : Option (List (Option (InfluxResult β))))
          = some [])
    ∧ ∀ (β : Type) (results : List (Option (InfluxResult β))) (fuel : Nat),
        (∀ r ∈ results, isAbsent r = true) →
          handleInfluxHistoryResponse (results.length + 1 + fuel) (some results) = some [] := by
  have hp : presentResults withNullEntry
      = [some ⟨some [⟨"10010", some [(1000, 5)]⟩]⟩,
         some ⟨some [⟨"10011", some [(1000, 7), (1060, 8)]⟩]⟩] := rfl
  refine ⟨?_, hp, ?_, fun _ _ => rfl, ?_⟩
  · intro fuel
    simp [handleInfluxHistoryResponse, resultLoop, withNullEntry, seriesLoop, rowLoop]
  · intro fuel
    rw [hp]
    simp [handleInfluxHistoryResponse, resultLoop, seriesLoop, rowLoop]
  · intro β results fuel h
    exact resultLoop_all_absent results h results.length 0 fuel [] (by omega)

/-! ## Theorems: items of every value type are queried -/

theorem intercalate_mem_split (sep : String) (l : List String) (a : String) (h : a ∈ l) :
    ∃ pre post : String, sep.intercalate l = pre ++ a ++ post := by
  cases l with
  | nil => simp at h
  | cons x xs =>
    rcases List.mem_cons.1 h with h | h
    · subst h
      refine ⟨"", String.mk (xs.map fun b => sep.data ++ b.data).flatten, ?_⟩
      apply String.ext
      simp [String.intercalate, intercalate_go_data]
    · obtain ⟨l1, l2, rfl⟩ := List.append_of_mem h
      refine ⟨String.mk (x.data ++ (l1.map fun b => sep.data ++ b.data).flatten ++ sep.data),
        String.mk (l2.map fun b => sep.data ++ b.data).flatten, ?_⟩
      apply String.ext
      simp [String.intercalate, intercalate_go_data, List.append_assoc]

theorem predicate_split (itemids : List String) (id : String) (h : id ∈ itemids)
    (front back : String) :
    ∃ pre post : String,
      front ++ " OR ".intercalate
          (itemids.map fun id => "\"itemid\" = '" ++ compactQuery id ++ "'") ++ back
        = pre ++ "\"itemid\" = '" ++ compactQuery id ++ "'" ++ post := by
  obtain ⟨p, q, hpq⟩ := intercalate_mem_split " OR "
    (itemids.map fun id => "\"itemid\" = '" ++ compactQuery id ++ "'")
    ("\"itemid\" = '" ++ compactQuery id ++ "'") (List.mem_map_of_mem _ h)
  refine ⟨front ++ p, q ++ back, ?_⟩
  rw [hpq]
  apply String.ext
  simp [String.data_append, List.append_assoc]

theorem occursIn_append_right {part whole : String} (h : occursIn part whole) (t : String) :
    occursIn part (whole ++ t) := by
  obtain ⟨pre, post, rfl⟩ := h
  refine ⟨pre, post ++ t, ?_⟩
  apply String.ext
  simp [String.data_append, List.append_assoc]

theorem occursIn_append_left {part whole : String} (h : occursIn part whole) (t : String) :
    occursIn part (t ++ whole) := by
  obtain ⟨pre, post, rfl⟩ := h
  refine ⟨t ++ pre, post, ?_⟩
  apply String.ext
  simp [String.data_append, List.append_assoc]

theorem occursIn_predicates (itemids : List String) (id : String) (h : id ∈ itemids) :
    occursIn ("\"itemid\" = '" ++ compactQuery id ++ "'")
      (" OR ".intercalate (itemids.map fun id => "\"itemid\" = '" ++ compactQuery id ++ "'")) :=
  intercalate_mem_split " OR " _ _
    (List.mem_map_of_mem (fun id => "\"itemid\" = '" ++ compactQuery id ++ "'") h)

theorem occursIn_buildHistoryQuery (itemids : List String) (id : String) (h : id ∈ itemids)
    (table : JsValue) (timeFrom timeTill intervalSec : Int) (aggFunction : JsValue) :
    occursIn ("\"itemid\" = '" ++ compactQuery id ++ "'")
      (buildHistoryQuery itemids table timeFrom timeTill intervalSec aggFunction) := by
  rw [buildHistoryQuery_text]
  iterate 7 apply occursIn_append_right
  apply occursIn_append_left
  exact occursIn_predicates itemids id h

theorem occursIn_buildTrendsQuery (itemids : List String) (id : String) (h : id ∈ itemids)
    (table : JsValue) (timeFrom timeTill intervalSec : Int)
    (aggFunction valueColumn : JsValue) :
    occursIn ("\"itemid\" = '" ++ compactQuery id ++ "'")
      (buildTrendsQuery itemids table timeFrom timeTill intervalSec aggFunction valueColumn) := by
  rw [buildTrendsQuery_text]
  iterate 7 apply occursIn_append_right
  apply occursIn_append_left
  exact occursIn_predicates itemids id h

theorem entry_of_item (items : List Item) (it : Item) (hit : it ∈ items) :
    ∃ e ∈ ownEntries (groupBy items), it.itemid ∈ e.2.map Item.itemid := by
  obtain ⟨_, hkeys, hval⟩ := ownEntries_groupBy_keys items
  obtain ⟨e, he, hk⟩ := List.mem_map.1 ((hkeys it.value_type).2 ⟨it, hit, rfl⟩)
  refine ⟨e, he, List.mem_map_of_mem Item.itemid ?_⟩
  rw [hval e he]
  simp [hit, hk]

set_option maxRecDepth 100000 in
/-- Claim C11, at an item of value type 5 for `getHistory` and of value type 1 for
`getTrends`, neither bound to a table: a query is submitted all the same, it names the table
`undefined` and holds the id of the item. -/
theorem unmapped_value_type_is_queried :
    (getHistory exampleClient 2 [⟨"10012", "5"⟩] 1000 2000
        ⟨60000, ConsolidateBy.str "avg"⟩).queries
      = ["SELECT MEAN(\"value\") FROM \"undefined\" WHERE (\"itemid\" = '10012') AND \"time\" >= 1000s AND \"time\" <= 2000s GROUP BY time(60s), \"itemid\" fill(linear)"]
    ∧ occursIn "10012"
        "SELECT MEAN(\"value\") FROM \"undefined\" WHERE (\"itemid\" = '10012') AND \"time\" >= 1000s AND \"time\" <= 2000s GROUP BY time(60s), \"itemid\" fill(linear)"
    ∧ (getTrends exampleClient 2 [⟨"10012", "1"⟩] 1000 2000
        ⟨60000, ConsolidateBy.str "avg"⟩).queries
      = ["SELECT MEAN(\"value_avg\") FROM \"undefined\" WHERE (\"itemid\" = '10012') AND \"time\" >= 1000s AND \"time\" <= 2000s GROUP BY time(60s)"]
    ∧ occursIn "10012"
        "SELECT MEAN(\"value_avg\") FROM \"undefined\" WHERE (\"itemid\" = '10012') AND \"time\" >= 1000s AND \"time\" <= 2000s GROUP BY time(60s)" := by
  refine ⟨by rfl, ?_, by rfl, ?_⟩
  · exact ⟨"SELECT MEAN(\"value\") FROM \"undefined\" WHERE (\"itemid\" = '",
      "') AND \"time\" >= 1000s AND \"time\" <= 2000s GROUP BY time(60s), \"itemid\" fill(linear)",
      by decide⟩
  · exact ⟨"SELECT MEAN(\"value_avg\") FROM \"undefined\" WHERE (\"itemid\" = '",
      "') AND \"time\" >= 1000s AND \"time\" <= 2000s GROUP BY time(60s)", by decide⟩

/-- Claim C11, amended: no item is dropped from query construction. For every item list and
every item of it, whatever its value type, `getHistory` and `getTrends` each submit a query
that holds the exact-match predicate `"itemid" = '<id>'` of that item, the id written with
its whitespace runs collapsed. -/
theorem every_item_is_queried {α : Type} (client : Client α) (fuel : Nat)
    (items : List Item) (timeFrom timeTill : Int) (options : QueryOptions)
    (it : Item) (hit : it ∈ items) :
    (∃ q ∈ (getHistory client fuel items timeFrom timeTill options).queries,
        occursIn ("\"itemid\" = '" ++ compactQuery it.itemid ++ "'") q)
    ∧ ∃ q ∈ (getTrends client fuel items timeFrom timeTill options).queries,
        occursIn ("\"itemid\" = '" ++ compactQuery it.itemid ++ "'") q := by
  obtain ⟨e, he, hid⟩ := entry_of_item items it hit
  constructor
  · rw [getHistory_queries]
    exact ⟨_, List.mem_map_of_mem _ he, occursIn_buildHistoryQuery _ _ hid _ _ _ _ _⟩
  · rw [getTrends_queries]
    exact ⟨_, List.mem_map_of_mem _ he, occursIn_buildTrendsQuery _ _ hid _ _ _ _ _ _⟩

/-- An item of value type 5, outside both table maps, for claim C11. -/
theorem every_item_is_queried_witness :
    (⟨"10012", "5"⟩ : Item) ∈ [(⟨"10012", "5"⟩ : Item)]
    ∧ (∃ q ∈ (getHistory exampleClient 2 [⟨"10012", "5"⟩] 1000 2000
          ⟨60000, ConsolidateBy.str "avg"⟩).queries,
        occursIn ("\"itemid\" = '" ++ compactQuery "10012" ++ "'") q)
    ∧ ∃ q ∈ (getTrends exampleClient 2 [⟨"10012", "5"⟩] 1000 2000
          ⟨60000, ConsolidateBy.str "avg"⟩).queries,
        occursIn ("\"itemid\" = '" ++ compactQuery "10012" ++ "'") q :=
  ⟨by decide,
    every_item_is_queried exampleClient 2 [⟨"10012", "5"⟩] 1000 2000
      ⟨60000, ConsolidateBy.str "avg"⟩ ⟨"10012", "5"⟩ (by decide)⟩

/-! ## Theorems: a returning loop visits no index twice -/

theorem visits_succ {α : Type} (results : List (Option (InfluxResult α))) (fuel i : Nat)
    (t : List Nat) (h : visits results fuel i = some t) :
    visits results (fuel + 1) i = some t := by
  induction fuel generalizing i t with
  | zero => simp [visits] at h
  | succ fuel ih =>
    by_cases hi : i < results.length
    · simp only [visits, hi, if_true, Option.map_eq_some'] at h ⊢
      obtain ⟨t1, h1, rfl⟩ := h
      exact ⟨t1, ih _ _ h1, rfl⟩
    · simp only [visits, hi, if_false] at h ⊢
      exact h

theorem visits_add {α : Type} (results : List (Option (InfluxResult α))) (fuel i : Nat)
    (t : List Nat) (h : visits results fuel i = some t) (k : Nat) :
    visits results (fuel + k) i = some t := by
  induction k with
  | zero => exact h
  | succ k ih => exact visits_succ results (fuel + k) i t ih

theorem visits_unique {α : Type} (results : List (Option (InfluxResult α)))
    (fuel1 fuel2 i : Nat) (t1 t2 : List Nat)
    (h1 : visits results fuel1 i = some t1) (h2 : visits results fuel2 i = some t2) :
    t1 = t2 := by
  have e1 := visits_add results fuel1 i t1 h1 fuel2
  have e2 := visits_add results fuel2 i t2 h2 fuel1
  rw [Nat.add_comm fuel2 fuel1, e1] at e2
  exact Option.some.inj e2

theorem visits_suffix {α : Type} (results : List (Option (InfluxResult α))) (fuel i : Nat)
    (t : List Nat) (h : visits results fuel i = some t) :
    ∀ j ∈ t, ∃ t', visits results fuel j = some t' ∧ t' <:+ t := by
  induction fuel generalizing i t with
  | zero => simp [visits] at h
  | succ fuel ih =>
    by_cases hi : i < results.length
    · have h' := h
      simp only [visits, hi, if_true, Option.map_eq_some'] at h'
      obtain ⟨t1, h1, rfl⟩ := h'
      intro j hj
      rcases List.mem_cons.1 hj with hj | hj
      · subst hj
        exact ⟨_, h, List.suffix_refl _⟩
      · obtain ⟨t', ht', hs⟩ := ih _ _ h1 j hj
        exact ⟨t', visits_succ results fuel j t' ht', hs.trans (List.suffix_cons _ _)⟩
    · simp only [visits, hi, if_false, Option.some.injEq] at h
      subst h
      simp

theorem visits_lt {α : Type} (results : List (Option (InfluxResult α))) (fuel i : Nat)
    (t : List Nat) (h : visits results fuel i = some t) :
    ∀ j ∈ t, j < results.length := by
  induction fuel generalizing i t with
  | zero => simp [visits] at h
  | succ fuel ih =>
    by_cases hi : i < results.length
    · simp only [visits, hi, if_true, Option.map_eq_some'] at h
      obtain ⟨t1, h1, rfl⟩ := h
      intro j hj
      rcases List.mem_cons.1 hj with hj | hj
      · rw [hj]; exact hi
      · exact ih _ _ h1 j hj
    · simp only [visits, hi, if_false, Option.some.injEq] at h
      subst h
      simp

theorem visits_nodup {α : Type} (results : List (Option (InfluxResult α))) (fuel i : Nat)
    (t : List Nat) (h : visits results fuel i = some t) : t.Nodup := by
  induction fuel generalizing i t with
  | zero => simp [visits] at h
  | succ fuel ih =>
    by_cases hi : i < results.length
    · have h' := h
      simp only [visits, hi, if_true, Option.map_eq_some'] at h'
      obtain ⟨t1, h1, rfl⟩ := h'
      rw [List.nodup_cons]
      refine ⟨?_, ih _ _ h1⟩
      intro hmem
      obtain ⟨t', ht', hs⟩ := visits_suffix results fuel _ t1 h1 i hmem
      have heq := visits_unique results fuel (fuel + 1) i t' (i :: t1) ht' h
      have hlen := hs.length_le
      rw [heq] at hlen
      simp at hlen
    · simp only [visits, hi, if_false, Option.some.injEq] at h
      subst h
      simp

/-- The names of the series of one entry of `results`, as the specification reads them. -/
theorem pushed_names {α : Type} (results : List (Option (InfluxResult α))) (j : Nat)
    (hj : j < results.length) :
    (results.map fun r =>
        (match r with
          | some result => (result.series.getD []).map specSeries
          | none => []).map TimeSeries.name)[j]?
      = some ((pushed results j).map TimeSeries.name) := by
  have hget : results[j]? = some results[j] := List.getElem?_eq_getElem hj
  simp only [pushed, hget, List.getElem?_map, Option.map_some']
  cases hr : results[j] with
  | none => simp
  | some result =>
    obtain ⟨series⟩ := result
    cases series with
    | none => simp
    | some l => simp [seriesLoop_snd]

theorem names_nodup_of_visits {α : Type} (results : List (Option (InfluxResult α)))
    (h : ((specReshape results).map TimeSeries.name).Nodup) (t : List Nat) (ht : t.Nodup)
    (hlt : ∀ j ∈ t, j < results.length) :
    (((t.map (pushed results)).flatten).map TimeSeries.name).Nodup := by
  simp only [specReshape, List.map_flatten, List.map_map] at h ⊢
  rw [List.nodup_flatten] at h ⊢
  obtain ⟨hn, hd⟩ := h
  have hmem : ∀ j, j < results.length →
      (List.map TimeSeries.name ∘ pushed results) j
        ∈ results.map (List.map TimeSeries.name ∘ fun r =>
            match r with
            | some result => (result.series.getD []).map specSeries
            | none => []) := by
    intro j hj
    have := pushed_names results j hj
    exact List.getElem?_mem this
  have hdis : ∀ a b, a < results.length → b < results.length → a < b →
      List.Disjoint ((List.map TimeSeries.name ∘ pushed results) a)
        ((List.map TimeSeries.name ∘ pushed results) b) := by
    intro a b ha hb hab
    have hla := pushed_names results a ha
    have hlb := pushed_names results b hb
    have := List.pairwise_iff_getElem.1 hd a b (by simpa using ha) (by simpa using hb) hab
    rw [List.getElem?_eq_some_iff] at hla hlb
    obtain ⟨_, hla⟩ := hla
    obtain ⟨_, hlb⟩ := hlb
    simp only [Function.comp]
    rw [← hla, ← hlb]
    exact this
  constructor
  · intro l hl
    obtain ⟨j, hj, rfl⟩ := List.mem_map.1 hl
    exact hn _ (hmem j (hlt j hj))
  · rw [List.pairwise_map]
    apply ht.pairwise_of_forall_ne
    intro a ha b hb hab
    rcases Nat.lt_or_gt_of_ne hab with hlt' | hlt'
    · exact hdis a b (hlt a ha) (hlt b hb) hlt'
    · exact (hdis b a (hlt b hb) (hlt a ha) hlt').symm

/-- When the loop leaves, no name is returned twice: for a results list in which no item-id
tag occurs on two series, a list that `handleInfluxHistoryResponse` returns holds no name on
two series. It says nothing of the inputs on which the loop does not leave. -/
theorem names_distinct_when_returned {α : Type} (results : List (Option (InfluxResult α)))
    (htags : ((specReshape results).map TimeSeries.name).Nodup)
    (fuel : Nat) (out : List (TimeSeries α))
    (hout : handleInfluxHistoryResponse fuel (some results) = some out) :
    (out.map TimeSeries.name).Nodup := by
  simp only [handleInfluxHistoryResponse, resultLoop_eq_visits, Option.map_eq_some',
    List.nil_append] at hout
  obtain ⟨t, ht, rfl⟩ := hout
  exact names_nodup_of_visits results htags t (visits_nodup results fuel 0 t ht)
    (visits_lt results fuel 0 t ht)

theorem threeResponses_stay_at_two (fuel : Nat) (seriesList : List (TimeSeries Int)) :
    resultLoop threeResponses (fuel + 1) 2 seriesList
      = resultLoop threeResponses fuel 2 (seriesList ++ [⟨"10012", [(9, 1000)]⟩]) := by
  rw [resultLoop_succ]
  have hn : nextIndex threeResponses 2 = 2 := by decide
  have hp : pushed threeResponses 2 = [⟨"10012", [(9, 1000)]⟩] := by decide
  rw [hn, hp]
  simp [threeResponses]

/-- Claim C17, evaluated at `threeResponses`, whose three tags are distinct: the outer loop
goes from index 0 to index 2 and stays there, every further test pushes the series named
10012 once more onto `seriesList`, which holds that name twice after three tests, and no
amount of fuel lets the function return a list. -/
theorem distinct_tags_never_returned :
    ((specReshape threeResponses).map TimeSeries.name).Nodup
    ∧ (∀ (fuel : Nat) (seriesList : List (TimeSeries Int)),
        resultLoop threeResponses (fuel + 1) 2 seriesList
          = resultLoop threeResponses fuel 2 (seriesList ++ [⟨"10012", [(9, 1000)]⟩]))
    ∧ (∀ fuel : Nat, resultLoop threeResponses (fuel + 3) 0 []
        = resultLoop threeResponses fuel 2
            [⟨"10010", [(5, 1000)]⟩, ⟨"10012", [(9, 1000)]⟩, ⟨"10012", [(9, 1000)]⟩])
    ∧ ¬ ((([⟨"10010", [(5, 1000)]⟩, ⟨"10012", [(9, 1000)]⟩, ⟨"10012", [(9, 1000)]⟩] :
          List (TimeSeries Int)).map TimeSeries.name).Nodup)
    ∧ ∀ fuel : Nat, handleInfluxHistoryResponse fuel (some threeResponses) = none := by
  have hstart : ∀ fuel : Nat, resultLoop threeResponses (fuel + 1) 0 []
      = resultLoop threeResponses fuel 2 [⟨"10010", [(5, 1000)]⟩] := by
    intro fuel
    rw [resultLoop_succ]
    have hn : nextIndex threeResponses 0 = 2 := by decide
    have hp : pushed threeResponses 0 = [⟨"10010", [(5, 1000)]⟩] := by decide
    rw [hn, hp]
    simp [threeResponses]
  have hloop : ∀ (fuel : Nat) (seriesList : List (TimeSeries Int)),
      resultLoop threeResponses fuel 2 seriesList = none := by
    intro fuel
    induction fuel with
    | zero => intro seriesList; rfl
    | succ fuel ih =>
      intro seriesList
      rw [threeResponses_stay_at_two, ih]
  refine ⟨by decide, threeResponses_stay_at_two, ?_, by decide, ?_⟩
  · intro fuel
    rw [hstart, threeResponses_stay_at_two, threeResponses_stay_at_two]
    rfl
  · intro fuel
    cases fuel with
    | zero => rfl
    | succ fuel =>
      simp only [handleInfluxHistoryResponse]
      rw [hstart, hloop]

end InfluxDBConnector
